import Mathlib

/-!
Verification of the PANDA file codec (`panda.py`): the `PandaFile` record
codec (`__init__` validation, `to_txt`, `from_txt`) and the harmonic
spectrum codec (`spectrum_to_string`, `string_to_spectrum`).

Python strings are modelled as `List Char`; Python `float` values are
modelled as decimal fixed-point numbers `man / 10 ^ exp` (every value the
program renders or parses is such a decimal; `str`/`float()` round-trip
behaviour is preserved at the value level).  Fallible Python code
(exceptions) is modelled with `Except`.
-/

namespace Panda

/-- Python strings, modelled as lists of characters. -/
abbrev Str := List Char

/-- The characters Python's `str.strip()` removes (ASCII whitespace). -/
def isPyWS (c : Char) : Bool :=
  c = ' ' || c = '\t' || c = '\n' || c = '\r' || c = '\x0b' || c = '\x0c'

/-- Python `s.strip()`: drop leading and trailing whitespace. -/
def pyStrip (s : Str) : Str :=
  ((s.dropWhile isPyWS).reverse.dropWhile isPyWS).reverse

/-- Python `s.strip('[]')`: drop leading and trailing brackets. -/
def pyStripBrackets (s : Str) : Str :=
  let isBr : Char → Bool := fun c => c = '[' || c = ']'
  ((s.dropWhile isBr).reverse.dropWhile isBr).reverse

/-- Python `s.endswith(c)` for a single character. -/
def endsWithChar (c : Char) (s : Str) : Bool :=
  match s.getLast? with
  | some d => d = c
  | none => false

/-- Python `s.split(sep)` for a one-character separator: splits at every
occurrence, keeping empty pieces (`"".split(c) = [""]`). -/
def pySplit (sep : Char) : Str → List Str
  | [] => [[]]
  | c :: rest =>
    match pySplit sep rest with
    | [] => [[]]
    | h :: t => if c = sep then [] :: h :: t else (c :: h) :: t

/-- Python `sep.join(parts)` for a one-character separator. -/
def intercalateChar (c : Char) : List Str → Str
  | [] => []
  | [s] => s
  | s :: t => s ++ (c :: intercalateChar c t)

/-! ### Decimal digits: rendering and reading back -/
/-- Digit-producing loop with explicit fuel, so the kernel can evaluate
it.  `fuel ≥ n` suffices for the loop to finish on its own. -/
def natToDigitsAux : Nat → Nat → List Char → List Char
  | 0, n, acc => Char.ofNat (48 + n % 10) :: acc
  | fuel + 1, n, acc =>
    if n < 10 then Char.ofNat (48 + n) :: acc
    else natToDigitsAux fuel (n / 10) (Char.ofNat (48 + n % 10) :: acc)

/-- The decimal digits of `n`, most significant first (CPython's `str` on a
non-negative integer). -/
def natToDigits (n : Nat) : List Char := natToDigitsAux n n []

/-- The value of a digit string (how `int`/`float` read digit runs). -/
def digitsVal (s : List Char) : Nat :=
  s.foldl (fun a c => 10 * a + (c.toNat - 48)) 0

/-- Python `str` on an `int`. -/
def intRepr (n : Int) : Str :=
  if n < 0 then '-' :: natToDigits n.natAbs else natToDigits n.toNat

/-! ### Python floats, modelled as decimal fixed-point numbers -/
/-- A Python `float` value, modelled as the decimal `man / 10 ^ exp`.
Every numeric literal the program renders or parses is a finite decimal;
binary rounding plays no role in any property considered here. -/
structure PyFloat where
  man : Int
  exp : Nat
deriving DecidableEq, Repr

/-- Value equality of two modelled floats (Python `==` on numbers). -/
def PyFloat.veq (a b : PyFloat) : Bool :=
  a.man * (10 : Int) ^ b.exp == b.man * (10 : Int) ^ a.exp

/-- The rational value of a modelled float. -/
def PyFloat.val (a : PyFloat) : ℚ := (a.man : ℚ) / (10 : ℚ) ^ a.exp

/-- Strip trailing decimal zeros: `⟨2300, 2⟩` becomes `⟨23, 0⟩`. -/
def normFloatAux : Int → Nat → PyFloat
  | m, 0 => ⟨m, 0⟩
  | m, e + 1 => if m % 10 == 0 then normFloatAux (m / 10) e else ⟨m, e + 1⟩

/-- Normal form of a modelled float (no trailing decimal zeros). -/
def normFloat (f : PyFloat) : PyFloat := normFloatAux f.man f.exp

/-- Python `str` on a float: minimal decimal form with at least one
fractional digit (`str(230.0) = "230.0"`, `str(0.5) = "0.5"`).  (CPython
switches to exponent notation for very small/large magnitudes; this model
always uses positional notation, which `float()` parses to the same
value.) -/
def floatRepr (f : PyFloat) : Str :=
  let n := normFloat f
  let sign : Str := if n.man < 0 then ['-'] else []
  let ds0 := natToDigits n.man.natAbs
  let ds := List.replicate (n.exp + 1 - ds0.length) '0' ++ ds0
  if n.exp = 0 then sign ++ ds ++ ['.', '0']
  else sign ++ ds.take (ds.length - n.exp) ++ '.' :: ds.drop (ds.length - n.exp)

/-- Leading optional sign of a numeric literal. -/
def pySign (s : Str) : Int × Str :=
  match s with
  | c :: r => if c = '+' then (1, r) else if c = '-' then ((-1 : Int), r) else (1, s)
  | [] => (1, s)

/-- Mantissa of a float literal: digits with an optional single point.
Returns the combined digit value, the fraction length, and the rest. -/
def parseMantissa (s : Str) : Option (Nat × Nat × Str) :=
  let ip := s.takeWhile Char.isDigit
  let r := s.dropWhile Char.isDigit
  match r with
  | '.' :: r2 =>
    let fp := r2.takeWhile Char.isDigit
    let r3 := r2.dropWhile Char.isDigit
    if ip.isEmpty && fp.isEmpty then none
    else some (digitsVal (ip ++ fp), fp.length, r3)
  | _ => if ip.isEmpty then none else some (digitsVal ip, 0, r)

/-- Optional exponent suffix of a float literal (`e−3`, `E+5`, …). -/
def parseExpPart (s : Str) : Option Int :=
  match s with
  | [] => some 0
  | c :: r =>
    if c = 'e' || c = 'E' then
      let p := pySign r
      if !p.2.isEmpty && p.2.all Char.isDigit then some (p.1 * (digitsVal p.2 : Int))
      else none
    else none

/-- Python `float(s)` on the finite-decimal fragment (`inf`/`nan` and
digit-group underscores are not modelled; nothing here produces them). -/
def pyFloatOfStr (s : Str) : Option PyFloat :=
  let p := pySign (pyStrip s)
  match parseMantissa p.2 with
  | none => none
  | some (m, fl, rest) =>
    match parseExpPart rest with
    | none => none
    | some e =>
      let e2 : Int := e - fl
      if 0 ≤ e2 then some ⟨p.1 * m * 10 ^ e2.toNat, 0⟩
      else some ⟨p.1 * m, (-e2).toNat⟩

/-- Python `int(s)`: optional sign and decimal digits, with surrounding
whitespace allowed. -/
def pyIntOfStr (s : Str) : Option Int :=
  let p := pySign (pyStrip s)
  if !p.2.isEmpty && p.2.all Char.isDigit then some (p.1 * (digitsVal p.2 : Int))
  else none

/-! ### The PANDA record codec -/
/-- `PandaFile.ALLOWED_CHARS` (panda.py line 10), character for
character.  The source file contains the mojibake byte sequence rendered
as `â`, `€`, `˜` (U+00E2, U+20AC, U+02DC) where a right single quote was
presumably intended; the ASCII apostrophe itself is NOT in the set. -/
def ALLOWED_CHARS : List Char :=
  ("ABCDEFGHIJKLMNOPQRSTUVWXYZabcdefghijklmnopqrstuvwxyz").toList
  ++ ['+', '-', '.', '_', ':', '|', '<', '>', '?', '!', '$', '%', '&', '=',
      '(', ')', '[', ']', '{', '}', '\\', '/', '@',
      Char.ofNat 0xE2, Char.ofNat 0x20AC, Char.ofNat 0x2DC, '*']
  ++ ("0123456789").toList ++ [' ']

/-- The validated properties (the keys of `MAX_LENGTHS`). -/
inductive Field
  | lab_id | user_id | category | sub_category | sell_year
  | unique_id | manufacturer | product_code | sell_country | description
deriving DecidableEq, Repr

/-- `PandaFile.MAX_LENGTHS` (lines 12–24). -/
def MAX_LENGTHS : Field → Nat
  | .lab_id => 4
  | .user_id => 4
  | .category => 1
  | .sub_category => 2
  | .sell_year => 4
  | .unique_id => 24
  | .manufacturer => 64
  | .product_code => 64
  | .sell_country => 2
  | .description => 500

/-- The exceptions the codec raises, each constructor carrying the
identifying payload of the corresponding Python message. -/
inductive Err
  | digitsOnly (f : Field)
  | disallowedChars (f : Field)
  | maxLength (f : Field)
  | keyError (k : Str)
  | keyErrorNone
  | unpackLine
  | intConv (s : Str)
  | floatConv (s : Str)
  | emptyZip
  | lengthMismatch
  | unpackEntry
  | joinNone
deriving DecidableEq, Repr

/-- Python `str.isdigit` (ASCII fragment; the empty string is not a digit
string). -/
def pyIsDigit (s : Str) : Bool := !s.isEmpty && s.all Char.isDigit

/-- `PandaFile._validate_property` (lines 77–99): digit check, then
character-set check, then length check. -/
def validate_property (f : Field) (value : Str) (digits_only : Bool := false) :
    Except Err Str :=
  if digits_only && !(pyIsDigit value) then .error (.digitsOnly f)
  else if value.any (fun c => !(ALLOWED_CHARS.contains c)) then
    .error (.disallowedChars f)
  else if MAX_LENGTHS f < value.length then .error (.maxLength f)
  else .ok value

/-- A dynamically typed value as stored in the unvalidated record fields
(`rated_power` may be a float or the string `"NA"`; `nominal_voltage`
arrives as a float from callers but as an int from `from_txt`). -/
inductive PyVal
  | str (s : Str)
  | int (n : Int)
  | float (f : PyFloat)
deriving DecidableEq, Repr

/-- Python `str()` of a dynamic value. -/
def pyValStr : PyVal → Str
  | .str s => s
  | .int n => intRepr n
  | .float f => floatRepr f

/-- Python `==` on dynamic values (numeric cross-type equality, strings
compared exactly). -/
def pyValEq : PyVal → PyVal → Bool
  | .str a, .str b => a == b
  | .int a, .int b => a == b
  | .float a, .float b => a.veq b
  | .int a, .float b => PyFloat.veq ⟨a, 0⟩ b
  | .float a, .int b => a.veq ⟨b, 0⟩
  | _, _ => false

/-- The in-memory record (the attributes `__init__` assigns). -/
structure PandaFile where
  lab_id : Str
  user_id : Str
  category : Str
  sub_category : Str
  unique_id : Str
  manufacturer : Str
  product_code : Str
  sell_country : Str
  sell_year : Str
  rated_power : PyVal
  nominal_frequency : PyFloat
  nominal_voltage : PyVal
  supply_source : Int
  description : Str
  current_harmonics : Str
  voltage_harmonics : Str
  sample_rate : Option Int
  current_data : Option (List PyFloat)
  voltage_data : Option (List PyFloat)
deriving DecidableEq, Repr

/-- `PandaFile.__init__` (lines 26–75): validates the textual properties
in source order (`lab_id` … `sell_year`, then `description`) and stores
everything else as given.  The interleaved plain assignments cannot
raise, so collecting them at the end preserves the raised error. -/
def pandaInit (lab_id user_id : Str) (category sub_category : Int)
    (unique_id manufacturer product_code sell_country sell_year : Str)
    (rated_power : PyVal) (nominal_frequency : PyFloat)
    (nominal_voltage : PyVal) (supply_source : Int) (description : Str)
    (current_harmonics voltage_harmonics : Str)
    (sample_rate : Option Int := none)
    (current_data : Option (List PyFloat) := none)
    (voltage_data : Option (List PyFloat) := none) : Except Err PandaFile := do
  let lab_id ← validate_property .lab_id lab_id true
  let user_id ← validate_property .user_id user_id true
  let category ← validate_property .category (intRepr category) true
  let sub_category ← validate_property .sub_category (intRepr sub_category) true
  let unique_id ← validate_property .unique_id unique_id
  let manufacturer ← validate_property .manufacturer manufacturer
  let product_code ← validate_property .product_code product_code
  let sell_country ← validate_property .sell_country sell_country
  let sell_year ← validate_property .sell_year sell_year true
  let description ← validate_property .description description
  .ok ⟨lab_id, user_id, category, sub_category, unique_id, manufacturer,
    product_code, sell_country, sell_year, rated_power, nominal_frequency,
    nominal_voltage, supply_source, description, current_harmonics,
    voltage_harmonics, sample_rate, current_data, voltage_data⟩

/-! ### Serialisation and parsing of the text document -/
def kUserDetail : Str := "User Detail".toList

def kEUT : Str := "EUT".toList

def kHarmonics : Str := "Harmonics".toList

def kWaveforms : Str := "Waveforms".toList

def kLabID : Str := "Lab_ID".toList

def kUserID : Str := "User_ID".toList

def kCategory : Str := "Category".toList

def kSubCategory : Str := "Sub_Category".toList

def kUniqueID : Str := "Unique_ID".toList

def kManufacturer : Str := "Manufacturer".toList

def kProductCode : Str := "Product_code".toList

def kSellCountry : Str := "Sell_Country".toList

def kSellYear : Str := "Sell_Year".toList

def kRatedPower : Str := "Rated_Power".toList

def kNominalFrequency : Str := "Nominal_Frequency".toList

def kNominalVoltage : Str := "Nominal_Voltage".toList

def kSupplySource : Str := "Supply_Source".toList

def kDescription : Str := "Description".toList

def kCurrentHarmonics : Str := "Current_Harmonics".toList

def kVoltageHarmonics : Str := "Voltage_Harmonics".toList

def kSamplingRate : Str := "Sampling_Rate".toList

def kCurrentData : Str := "Current_Data".toList

def kVoltageData : Str := "Voltage_Data".toList

/-- A `Key = value;` output line of `to_txt`, newline included. -/
def kvLine (key value : Str) : Str :=
  key ++ " = ".toList ++ value ++ [';', '\n']

/-- The strings passed to `file.write` by `to_txt` (lines 109–128), in
order, before the conditional waveform block. -/
def baseWrites (p : PandaFile) : List Str :=
  ["TUDHDB_TXT_v01\n".toList,
   "[User Detail]\n".toList,
   kvLine kLabID p.lab_id,
   kvLine kUserID p.user_id,
   "[EUT]\n".toList,
   kvLine kCategory p.category,
   kvLine kSubCategory p.sub_category,
   kvLine kUniqueID p.unique_id,
   kvLine kManufacturer p.manufacturer,
   kvLine kProductCode p.product_code,
   kvLine kSellCountry p.sell_country,
   kvLine kSellYear p.sell_year,
   kvLine kRatedPower (pyValStr p.rated_power),
   kvLine kNominalFrequency (floatRepr p.nominal_frequency),
   kvLine kNominalVoltage (pyValStr p.nominal_voltage),
   kvLine kSupplySource (intRepr p.supply_source),
   kvLine kDescription p.description,
   "[Harmonics]\n".toList,
   kvLine kCurrentHarmonics p.current_harmonics,
   kvLine kVoltageHarmonics p.voltage_harmonics]

/-- The strings written for the waveform block (lines 130–133). -/
def waveWrites (sr : Int) (cd vd : List PyFloat) : List Str :=
  ["[Waveforms]\n".toList,
   kvLine kSamplingRate (intRepr sr),
   kvLine kCurrentData (intercalateChar ',' (cd.map floatRepr)),
   kvLine kVoltageData (intercalateChar ',' (vd.map floatRepr))]

/-- `PandaFile.to_txt` (lines 101–133): the concatenation of the write
calls.  Joining `current_data`/`voltage_data` when it is `None` raises
`TypeError` in Python, modelled as `Err.joinNone`. -/
def to_txt (p : PandaFile) : Except Err Str :=
  match p.sample_rate with
  | none => .ok (baseWrites p).flatten
  | some sr =>
    match p.current_data with
    | none => .error .joinNone
    | some cd =>
      match p.voltage_data with
      | none => .error .joinNone
      | some vd => .ok ((baseWrites p ++ waveWrites sr cd vd).flatten)

/-- The per-section key/value mapping built by the scan loop, as an
insertion-ordered dictionary. -/
abbrev Dict := List (Str × Str)

/-- The section → dict mapping. -/
abbrev Sections := List (Str × Dict)

/-- Python dict assignment `d[k] = v` (overwrite or append). -/
def dictSet {α : Type} : List (Str × α) → Str → α → List (Str × α)
  | [], k, v => [(k, v)]
  | (k', v') :: t, k, v =>
    if k' = k then (k, v) :: t else (k', v') :: dictSet t k v

/-- Python dict lookup `d[k]`, `none` when absent. -/
def dictGet? {α : Type} : List (Str × α) → Str → Option α
  | [], _ => none
  | (k', v) :: t, k => if k' = k then some v else dictGet? t k

/-- One iteration of the `from_txt` scan loop (lines 152–158): a line
ending in `]` opens (and resets) a section; otherwise a line containing
`=` is split — more than one `=` makes the two-name unpacking fail, and
a `=`-line before any section indexes `data[None]`, a `KeyError`. -/
def processLine (st : Sections × Option Str) (line : Str) :
    Except Err (Sections × Option Str) :=
  if endsWithChar ']' (pyStrip line) then
    let s := pyStripBrackets (pyStrip line)
    .ok (dictSet st.1 s [], some s)
  else if line.contains '=' then
    match pySplit '=' line with
    | [k, v] =>
      match st.2 with
      | none => .error .keyErrorNone
      | some s =>
        match dictGet? st.1 s with
        | none => .error (.keyError s)
        | some d =>
          .ok (dictSet st.1 s
            (dictSet d (pyStrip k) (pyStrip ((pySplit ';' v).headD []))), st.2)
    | _ => .error .unpackLine
  else .ok st

/-- The scan of lines 150–158: fold the loop body over all lines. -/
def parseLines (lines : List Str) : Except Err Sections := do
  let st ← lines.foldlM processLine ([], none)
  .ok st.1

/-- `data[sec][key]` (lines 162–177): a missing name raises `KeyError`
identifying it. -/
def getIn (data : Sections) (s k : Str) : Except Err Str :=
  match dictGet? data s with
  | none => .error (.keyError s)
  | some d =>
    match dictGet? d k with
    | none => .error (.keyError k)
    | some v => .ok v

/-- `int(value)` with the `ValueError` on failure. -/
def toInt (s : Str) : Except Err Int :=
  match pyIntOfStr s with
  | some n => .ok n
  | none => .error (.intConv s)

/-- `float(value)` with the `ValueError` on failure. -/
def toFloat (s : Str) : Except Err PyFloat :=
  match pyFloatOfStr s with
  | some f => .ok f
  | none => .error (.floatConv s)

/-- The three waveform keyword arguments of the `cls(...)` call
(lines 178–182), each conditional on the `Waveforms` section. -/
def resolveWave (data : Sections) :
    Except Err (Option Int × Option (List PyFloat) × Option (List PyFloat)) :=
  match dictGet? data kWaveforms with
  | none => .ok (none, none, none)
  | some w => do
    let srs ← match dictGet? w kSamplingRate with
      | none => .error (.keyError kSamplingRate)
      | some v => Except.ok v
    let sr ← toInt srs
    let cds ← match dictGet? w kCurrentData with
      | none => .error (.keyError kCurrentData)
      | some v => Except.ok v
    let cd ← (pySplit ',' cds).mapM toFloat
    let vds ← match dictGet? w kVoltageData with
      | none => .error (.keyError kVoltageData)
      | some v => Except.ok v
    let vd ← (pySplit ',' vds).mapM toFloat
    .ok (some sr, some cd, some vd)

/-- The record construction of `from_txt` (lines 161–183): keyword
arguments are evaluated in call order, then `__init__` revalidates. -/
def buildRecord (data : Sections) : Except Err PandaFile := do
  let lab_id ← getIn data kUserDetail kLabID
  let user_id ← getIn data kUserDetail kUserID
  let category ← toInt (← getIn data kEUT kCategory)
  let sub_category ← toInt (← getIn data kEUT kSubCategory)
  let unique_id ← getIn data kEUT kUniqueID
  let manufacturer ← getIn data kEUT kManufacturer
  let product_code ← getIn data kEUT kProductCode
  let sell_country ← getIn data kEUT kSellCountry
  let sell_year ← getIn data kEUT kSellYear
  let rated_power ← getIn data kEUT kRatedPower
  let nominal_frequency ← toFloat (← getIn data kEUT kNominalFrequency)
  let nominal_voltage ← toInt (← getIn data kEUT kNominalVoltage)
  let supply_source ← toInt (← getIn data kEUT kSupplySource)
  let description ← getIn data kEUT kDescription
  let current_harmonics ← getIn data kHarmonics kCurrentHarmonics
  let voltage_harmonics ← getIn data kHarmonics kVoltageHarmonics
  let wave ← resolveWave data
  pandaInit lab_id user_id category sub_category unique_id manufacturer
    product_code sell_country sell_year (.str rated_power) nominal_frequency
    (.int nominal_voltage) supply_source description current_harmonics
    voltage_harmonics wave.1 wave.2.1 wave.2.2

/-- `PandaFile.from_txt` (lines 135–183), applied to the file's text
(`readlines` modelled by splitting on the newline character). -/
def from_txt (text : Str) : Except Err PandaFile := do
  buildRecord (← parseLines (pySplit '\n' text))

/-! ### The spectrum codec -/
/-- Harmonic orders may arrive as ints or floats
(`Sequence[int | float]`). -/
inductive PyNum
  | int (n : Int)
  | float (f : PyFloat)
deriving DecidableEq, Repr

/-- Python `str()` of a harmonic order. -/
def pyNumStr : PyNum → Str
  | .int n => intRepr n
  | .float f => floatRepr f

/-- The `float()` widening of a harmonic order. -/
def pyNumFloat : PyNum → PyFloat
  | .int n => ⟨n, 0⟩
  | .float f => f

/-- `np.isclose(m, 0)` with the default tolerances `rtol=1e-5`,
`atol=1e-8`: against zero this is `|m| ≤ 1e-8`, exact on the decimal
model. -/
def npIscloseZero (m : PyFloat) : Bool :=
  m.man.natAbs * 10 ^ 8 ≤ 10 ^ m.exp

/-- One `order,magnitude,phase` entry of the encoded spectrum. -/
def entryStr (t : PyNum × PyFloat × PyFloat) : Str :=
  pyNumStr t.1 ++ ',' :: floatRepr t.2.1 ++ ',' :: floatRepr t.2.2

/-- `PandaFile.spectrum_to_string` (lines 185–219): length check, filter
of near-zero magnitudes (empty result makes the `zip(*[])` unpacking
raise), then `order,mag,phase` entries joined by `/` with the trailing
slash removed by `[:-1]`. -/
def spectrum_to_string (harmonic_orders : List PyNum)
    (magnitudes_rms phase_angle_degree : List PyFloat) : Except Err Str :=
  if harmonic_orders.length ≠ magnitudes_rms.length
      ∨ harmonic_orders.length ≠ phase_angle_degree.length then
    .error .lengthMismatch
  else
    let triples := (harmonic_orders.zip
      (magnitudes_rms.zip phase_angle_degree)).filter
        (fun t => !(npIscloseZero t.2.1))
    if triples.isEmpty then .error .emptyZip
    else .ok ((triples.map (fun t => entryStr t ++ ['/'])).flatten.dropLast)

/-- One iteration of the `string_to_spectrum` loop (lines 240–244):
split the entry on `,`, unpack exactly three fields, convert each with
`float`. -/
def parseHarmonic (entry : Str) : Except Err (PyFloat × PyFloat × PyFloat) :=
  match pySplit ',' entry with
  | [a, b, c] => do
    let ho ← toFloat a
    let mg ← toFloat b
    let ph ← toFloat c
    .ok (ho, mg, ph)
  | _ => .error .unpackEntry

/-- `PandaFile.string_to_spectrum` (lines 221–245). -/
def string_to_spectrum (harmonic_string : Str) :
    Except Err (List PyFloat × List PyFloat × List PyFloat) := do
  let s := if endsWithChar '/' harmonic_string
    then harmonic_string.dropLast else harmonic_string
  let triples ← (pySplit '/' s).mapM parseHarmonic
  .ok (triples.map (fun t => t.1), triples.map (fun t => t.2.1),
    triples.map (fun t => t.2.2))

deriving instance DecidableEq for Except

/-- `Except.ok`-ness as a boolean, for concrete checks. -/
def isOkB {ε α : Type} : Except ε α → Bool
  | .ok _ => true
  | .error _ => false

/-- A well-formed document in the exact `to_txt` layout, used as a
concrete test vehicle. -/
def demoText : Str := ("TUDHDB_TXT_v01\n[User Detail]\nLab_ID = 1234;\nUser_ID = 1;\n[EUT]\nCategory = 1;\nSub_Category = 2;\nUnique_ID = u1;\nManufacturer = Acme;\nProduct_code = P1;\nSell_Country = DE;\nSell_Year = 2020;\nRated_Power = NA;\nNominal_Frequency = 50.0;\nNominal_Voltage = 230;\nSupply_Source = 1;\nDescription = test;\n[Harmonics]\nCurrent_Harmonics = 1,230.0,0.0;\nVoltage_Harmonics = 1,230.0,0.0;\n").toList

/-! ### Claim C1: the record round trip -/
/-- A `Key = value;` line without its newline. -/
def kvBody (key value : Str) : Str := key ++ " = ".toList ++ value ++ [';']

/-- The line contents of the unconditional part of the document. -/
def metaBodies (p : PandaFile) : List Str :=
  ["TUDHDB_TXT_v01".toList,
   "[User Detail]".toList,
   kvBody kLabID p.lab_id,
   kvBody kUserID p.user_id,
   "[EUT]".toList,
   kvBody kCategory p.category,
   kvBody kSubCategory p.sub_category,
   kvBody kUniqueID p.unique_id,
   kvBody kManufacturer p.manufacturer,
   kvBody kProductCode p.product_code,
   kvBody kSellCountry p.sell_country,
   kvBody kSellYear p.sell_year,
   kvBody kRatedPower (pyValStr p.rated_power),
   kvBody kNominalFrequency (floatRepr p.nominal_frequency),
   kvBody kNominalVoltage (pyValStr p.nominal_voltage),
   kvBody kSupplySource (intRepr p.supply_source),
   kvBody kDescription p.description,
   "[Harmonics]".toList,
   kvBody kCurrentHarmonics p.current_harmonics,
   kvBody kVoltageHarmonics p.voltage_harmonics]

/-- The line contents of the waveform block. -/
def waveBodies (sr : Int) (cd vd : List PyFloat) : List Str :=
  ["[Waveforms]".toList,
   kvBody kSamplingRate (intRepr sr),
   kvBody kCurrentData (intercalateChar ',' (cd.map floatRepr)),
   kvBody kVoltageData (intercalateChar ',' (vd.map floatRepr))]

/-- The key/value dictionary the scan builds for the `EUT` section. -/
def eutDict (p : PandaFile) : Dict :=
  [(kCategory, p.category), (kSubCategory, p.sub_category),
   (kUniqueID, p.unique_id), (kManufacturer, p.manufacturer),
   (kProductCode, p.product_code), (kSellCountry, p.sell_country),
   (kSellYear, p.sell_year), (kRatedPower, pyValStr p.rated_power),
   (kNominalFrequency, floatRepr p.nominal_frequency),
   (kNominalVoltage, pyValStr p.nominal_voltage),
   (kSupplySource, intRepr p.supply_source),
   (kDescription, p.description)]

/-- The sections the scan builds from the unconditional document part. -/
def metaData (p : PandaFile) : Sections :=
  [(kUserDetail, [(kLabID, p.lab_id), (kUserID, p.user_id)]),
   (kEUT, eutDict p),
   (kHarmonics, [(kCurrentHarmonics, p.current_harmonics),
                 (kVoltageHarmonics, p.voltage_harmonics)])]

/-- A value that survives embedding in a `Key = value;` line: no
newline, no `=`, no `;`, and stable under stripping. -/
def lineSafe (s : Str) : Bool :=
  !(s.contains '\n') && !(s.contains '=') && !(s.contains ';')
    && (pyStrip s == s)

/-- A digit string in canonical form (no leading zeros), so converting
to `int` and rendering back is the identity. -/
def canonDigitStr (s : Str) : Bool := natToDigits (digitsVal s) == s

/-- All-or-nothing waveform block with nonempty data lists. -/
def waveSafe (p : PandaFile) : Bool :=
  match p.sample_rate, p.current_data, p.voltage_data with
  | none, none, none => true
  | some _, some cd, some vd => !cd.isEmpty && !vd.isEmpty
  | _, _, _ => false

/-- The integer payload of a `PyVal` (0 when it is not an int). -/
def pyValInt : PyVal → Int
  | .int n => n
  | _ => 0

/-- The domain of the amended round-trip law: a record whose validated
fields revalidate, whose free-text fields are line-safe, whose
`category`/`sub_category` have no leading zeros, whose `rated_power` is
stored as a (line-safe) string, whose `nominal_voltage` is an integer,
and whose waveform block is all-present (with nonempty data) or
all-absent. -/
def Serializable (p : PandaFile) : Prop :=
  validate_property .lab_id p.lab_id true = .ok p.lab_id ∧
  validate_property .user_id p.user_id true = .ok p.user_id ∧
  validate_property .category p.category true = .ok p.category ∧
  validate_property .sub_category p.sub_category true = .ok p.sub_category ∧
  validate_property .unique_id p.unique_id false = .ok p.unique_id ∧
  validate_property .manufacturer p.manufacturer false = .ok p.manufacturer ∧
  validate_property .product_code p.product_code false = .ok p.product_code ∧
  validate_property .sell_country p.sell_country false = .ok p.sell_country ∧
  validate_property .sell_year p.sell_year true = .ok p.sell_year ∧
  validate_property .description p.description false = .ok p.description ∧
  canonDigitStr p.category = true ∧ canonDigitStr p.sub_category = true ∧
  lineSafe p.unique_id = true ∧ lineSafe p.manufacturer = true ∧
  lineSafe p.product_code = true ∧ lineSafe p.sell_country = true ∧
  lineSafe p.description = true ∧
  lineSafe p.current_harmonics = true ∧ lineSafe p.voltage_harmonics = true ∧
  p.rated_power = .str (pyValStr p.rated_power) ∧
  lineSafe (pyValStr p.rated_power) = true ∧
  p.nominal_voltage = .int (pyValInt p.nominal_voltage) ∧
  waveSafe p = true

/-- Elementwise Python `==` on optional float lists. -/
def optFloatsEq : Option (List PyFloat) → Option (List PyFloat) → Bool
  | none, none => true
  | some a, some b =>
    a.length == b.length && (a.zip b).all (fun t => t.1.veq t.2)
  | _, _ => false

/-- Field-wise Python `==` of two records (numbers by value). -/
def pandaPyEq (a b : PandaFile) : Bool :=
  a.lab_id == b.lab_id && a.user_id == b.user_id
  && a.category == b.category && a.sub_category == b.sub_category
  && a.unique_id == b.unique_id && a.manufacturer == b.manufacturer
  && a.product_code == b.product_code && a.sell_country == b.sell_country
  && a.sell_year == b.sell_year
  && pyValEq a.rated_power b.rated_power
  && a.nominal_frequency.veq b.nominal_frequency
  && pyValEq a.nominal_voltage b.nominal_voltage
  && a.supply_source == b.supply_source
  && a.description == b.description
  && a.current_harmonics == b.current_harmonics
  && a.voltage_harmonics == b.voltage_harmonics
  && a.sample_rate == b.sample_rate
  && optFloatsEq a.current_data b.current_data
  && optFloatsEq a.voltage_data b.voltage_data

/-- The per-line safety facts the round trip needs of one value. -/
abbrev LineOK (v : Str) : Prop :=
  ('\n') ∉ v ∧ ('=') ∉ v ∧ (';') ∉ v ∧ pyStrip v = v

theorem pySplit_ne_nil (sep : Char) (s : Str) : pySplit sep s ≠ [] := by
  cases s with
  | nil => simp [pySplit]
  | cons c rest =>
    simp only [pySplit]
    cases pySplit sep rest with
    | nil => simp
    | cons h t =>
      by_cases hc : c = sep <;> simp [hc]

theorem pySplit_cons_sep (sep : Char) (s : Str) :
    pySplit sep (sep :: s) = [] :: pySplit sep s := by
  simp only [pySplit]
  cases h : pySplit sep s with
  | nil => exact absurd h (pySplit_ne_nil sep s)
  | cons a t => simp

theorem pySplit_cons_ne (sep c : Char) (s : Str) (hc : c ≠ sep) :
    pySplit sep (c :: s) =
      (c :: (pySplit sep s).headD []) :: (pySplit sep s).tail := by
  simp only [pySplit]
  cases h : pySplit sep s with
  | nil => exact absurd h (pySplit_ne_nil sep s)
  | cons a t => simp [hc]

/-- A separator-free string splits into one piece. -/
theorem pySplit_of_not_mem (sep : Char) (s : Str) (h : sep ∉ s) :
    pySplit sep s = [s] := by
  induction s with
  | nil => rfl
  | cons c rest ih =>
    have hc : c ≠ sep := fun hcc => h (hcc ▸ List.mem_cons_self c rest)
    have hrest : sep ∉ rest := fun hm => h (List.mem_cons_of_mem c hm)
    rw [pySplit_cons_ne sep c rest hc, ih hrest]
    simp

/-- Splitting a string that starts with a separator-free prefix. -/
theorem pySplit_append (sep : Char) (a b : Str) (h : sep ∉ a) :
    pySplit sep (a ++ b) =
      (a ++ (pySplit sep b).headD []) :: (pySplit sep b).tail := by
  induction a with
  | nil =>
    simp only [List.nil_append]
    cases hb : pySplit sep b with
    | nil => exact absurd hb (pySplit_ne_nil sep b)
    | cons x t => simp
  | cons c rest ih =>
    have hc : c ≠ sep := fun hcc => h (hcc ▸ List.mem_cons_self c rest)
    have hrest : sep ∉ rest := fun hm => h (List.mem_cons_of_mem c hm)
    rw [List.cons_append, pySplit_cons_ne sep c (rest ++ b) hc, ih hrest]
    simp

/-- The first piece of a split is the longest separator-free prefix. -/
theorem pySplit_headD (sep : Char) (s : Str) :
    (pySplit sep s).headD [] = s.takeWhile (fun c => c != sep) := by
  induction s with
  | nil => rfl
  | cons c rest ih =>
    by_cases hc : c = sep
    · subst hc
      rw [pySplit_cons_sep]
      simp [List.takeWhile_cons]
    · rw [pySplit_cons_ne sep c rest hc]
      have hb : (c != sep) = true := by simp [bne, hc]
      simp only [List.headD_cons, List.takeWhile_cons, hb, if_true]
      exact congrArg (c :: ·) ih

/-- Splitting a join recovers the parts when no part contains the
separator. -/
theorem pySplit_intercalateChar (sep : Char) (parts : List Str)
    (hne : parts ≠ []) (h : ∀ p ∈ parts, sep ∉ p) :
    pySplit sep (intercalateChar sep parts) = parts := by
  induction parts with
  | nil => exact absurd rfl hne
  | cons p rest ih =>
    cases rest with
    | nil =>
      simp only [intercalateChar]
      exact pySplit_of_not_mem sep p (h p (List.mem_cons_self p []))
    | cons q rest' =>
      have hp : sep ∉ p := h p (List.mem_cons_self p _)
      have hrest : ∀ x ∈ q :: rest', sep ∉ x := fun x hx =>
        h x (List.mem_cons_of_mem p hx)
      have ihr := ih (by simp) hrest
      show pySplit sep (p ++ (sep :: intercalateChar sep (q :: rest'))) = _
      rw [pySplit_append sep p _ hp, pySplit_cons_sep, ihr]
      simp

theorem pyStrip_cons_ws (c : Char) (s : Str) (h : isPyWS c = true) :
    pyStrip (c :: s) = pyStrip s := by
  simp [pyStrip, List.dropWhile_cons, h]

/-- A string with non-whitespace ends strips to itself. -/
theorem pyStrip_eq_self (s : Str)
    (h1 : ∀ c, s.head? = some c → isPyWS c = false)
    (h2 : ∀ c, s.getLast? = some c → isPyWS c = false) :
    pyStrip s = s := by
  unfold pyStrip
  have hd : s.dropWhile isPyWS = s := by
    cases s with
    | nil => rfl
    | cons c t => simp [List.dropWhile_cons, h1 c rfl]
  rw [hd]
  have hrev : s.reverse.dropWhile isPyWS = s.reverse := by
    cases hs : s.reverse with
    | nil => rfl
    | cons c t =>
      have : s.getLast? = some c := by
        rw [List.getLast?_eq_head?_reverse, hs]
        rfl
      simp [List.dropWhile_cons, h2 c this]
  rw [hrev, List.reverse_reverse]

theorem natToDigitsAux_acc (fuel : Nat) : ∀ (n : Nat) (acc : List Char),
    natToDigitsAux fuel n acc = natToDigitsAux fuel n [] ++ acc := by
  induction fuel with
  | zero => intro n acc; rfl
  | succ fuel ih =>
    intro n acc
    by_cases h : n < 10
    · simp [natToDigitsAux, h]
    · simp only [natToDigitsAux, h, if_false]
      rw [ih (n / 10) (Char.ofNat (48 + n % 10) :: acc),
        ih (n / 10) [Char.ofNat (48 + n % 10)]]
      simp

theorem natToDigitsAux_fuel (n : Nat) : ∀ fuel₁ fuel₂ : Nat,
    n ≤ fuel₁ → n ≤ fuel₂ →
    natToDigitsAux fuel₁ n [] = natToDigitsAux fuel₂ n [] := by
  induction n using Nat.strong_induction_on with
  | _ n ih =>
    intro fuel₁ fuel₂ h₁ h₂
    cases fuel₁ with
    | zero =>
      cases fuel₂ with
      | zero => rfl
      | succ f₂ =>
        have hn : n = 0 := Nat.le_zero.mp h₁
        subst hn
        rfl
    | succ f₁ =>
      cases fuel₂ with
      | zero =>
        have hn : n = 0 := Nat.le_zero.mp h₂
        subst hn
        rfl
      | succ f₂ =>
        by_cases h : n < 10
        · simp [natToDigitsAux, h]
        · simp only [natToDigitsAux, h, if_false]
          rw [natToDigitsAux_acc f₁, natToDigitsAux_acc f₂]
          have hdiv : n / 10 < n := Nat.div_lt_self (by omega) (by omega)
          rw [ih (n / 10) hdiv f₁ f₂ (by omega) (by omega)]

/-- The recursion `natToDigits` actually performs. -/
theorem natToDigits_eq (n : Nat) :
    natToDigits n = if n < 10 then [Char.ofNat (48 + n)]
      else natToDigits (n / 10) ++ [Char.ofNat (48 + n % 10)] := by
  unfold natToDigits
  cases n with
  | zero => rfl
  | succ k =>
    by_cases h : k + 1 < 10
    · simp [natToDigitsAux, h]
    · simp only [natToDigitsAux, h, if_false]
      rw [natToDigitsAux_acc k]
      have hdiv : (k + 1) / 10 < k + 1 := Nat.div_lt_self (by omega) (by omega)
      rw [natToDigitsAux_fuel ((k + 1) / 10) k ((k + 1) / 10) (by omega) le_rfl]

theorem digitsVal_foldl (b : List Char) : ∀ va : Nat,
    List.foldl (fun a c => 10 * a + (c.toNat - 48)) va b
      = va * 10 ^ b.length + digitsVal b := by
  induction b with
  | nil => intro va; simp [digitsVal]
  | cons c t ih =>
    intro va
    have hct : digitsVal (c :: t)
        = (10 * 0 + (c.toNat - 48)) * 10 ^ t.length + digitsVal t := ih _
    rw [List.foldl_cons, ih, List.length_cons, hct]
    ring

theorem digitsVal_append (a b : List Char) :
    digitsVal (a ++ b) = digitsVal a * 10 ^ b.length + digitsVal b := by
  show List.foldl _ 0 (a ++ b) = _
  rw [List.foldl_append, digitsVal_foldl]
  rfl

theorem digitsVal_cons (c : Char) (t : List Char) :
    digitsVal (c :: t) = (c.toNat - 48) * 10 ^ t.length + digitsVal t := by
  have := digitsVal_append [c] t
  simpa [digitsVal] using this

theorem digitsVal_natToDigits (n : Nat) : digitsVal (natToDigits n) = n := by
  induction n using Nat.strong_induction_on with
  | _ n ih =>
    rw [natToDigits_eq]
    by_cases h : n < 10
    · rw [if_pos h]
      have hv : (Char.ofNat (48 + n)).toNat = 48 + n := by
        interval_cases n <;> decide
      simp [digitsVal, hv]
    · rw [if_neg h]
      rw [digitsVal_append, ih (n / 10) (Nat.div_lt_self (by omega) (by omega))]
      have hm : n % 10 < 10 := Nat.mod_lt _ (by omega)
      have hv : (Char.ofNat (48 + n % 10)).toNat = 48 + n % 10 := by
        interval_cases hn : (n % 10) <;> decide
      simp [digitsVal, hv]
      omega

theorem natToDigits_all_digit (n : Nat) :
    ∀ c ∈ natToDigits n, c.isDigit = true := by
  induction n using Nat.strong_induction_on with
  | _ n ih =>
    rw [natToDigits_eq]
    by_cases h : n < 10
    · rw [if_pos h]
      intro c hc
      simp only [List.mem_singleton] at hc
      subst hc
      interval_cases n <;> decide
    · rw [if_neg h]
      intro c hc
      rcases List.mem_append.mp hc with h1 | h2
      · exact ih (n / 10) (Nat.div_lt_self (by omega) (by omega)) c h1
      · simp only [List.mem_singleton] at h2
        subst h2
        have hm : n % 10 < 10 := Nat.mod_lt _ (by omega)
        interval_cases hn : (n % 10) <;> decide

theorem natToDigits_ne_nil (n : Nat) : natToDigits n ≠ [] := by
  rw [natToDigits_eq]
  by_cases h : n < 10 <;> simp [h]

theorem PyFloat.veq_iff_val (a b : PyFloat) : a.veq b = true ↔ a.val = b.val := by
  unfold PyFloat.veq PyFloat.val
  rw [beq_iff_eq, div_eq_div_iff (by positivity) (by positivity)]
  constructor
  · intro h
    exact_mod_cast congrArg (fun z : Int => (z : ℚ)) h
  · intro h
    exact_mod_cast h

theorem normFloatAux_val (e : Nat) : ∀ m : Int,
    (normFloatAux m e).val = PyFloat.val ⟨m, e⟩ := by
  induction e with
  | zero => intro m; rfl
  | succ e ih =>
    intro m
    show (if m % 10 == 0 then normFloatAux (m / 10) e else ⟨m, e + 1⟩).val = _
    by_cases h : m % 10 = 0
    · have hm : (10 : Int) * (m / 10) = m := by omega
      simp only [h, beq_self_eq_true, if_true]
      rw [ih]
      unfold PyFloat.val
      rw [div_eq_div_iff (by positivity) (by positivity)]
      have hq : (m : ℚ) = 10 * ((m / 10 : Int) : ℚ) := by exact_mod_cast hm.symm
      rw [pow_succ, hq]
      ring
    · simp [h]

theorem normFloat_val (f : PyFloat) : (normFloat f).val = f.val :=
  normFloatAux_val f.exp f.man

example : pyFloatOfStr ("230.0").toList = some ⟨2300, 1⟩ := by decide

example : pyFloatOfStr ("1e-09").toList = some ⟨1, 9⟩ := by decide

example : pyFloatOfStr ("-0.5").toList = some ⟨-5, 1⟩ := by decide

example : pyFloatOfStr ("5.").toList = some ⟨5, 0⟩ := by decide

example : pyFloatOfStr ("").toList = none := by decide

example : pyIntOfStr ("230.0").toList = none := by decide

example : pyIntOfStr (" -42 ").toList = some (-42) := by decide

example : floatRepr ⟨2300, 1⟩ = ("230.0").toList := by decide

example : floatRepr ⟨52, 1⟩ = ("5.2").toList := by decide

example : floatRepr ⟨-5, 1⟩ = ("-0.5").toList := by decide

example : floatRepr ⟨0, 3⟩ = ("0.0").toList := by decide

/-! ### Parse/render round-trip lemmas -/
theorem ne_of_isDigit {c : Char} (h : c.isDigit = true) {d : Char}
    (hd : d.isDigit = false) : c ≠ d := by
  intro he
  rw [he, hd] at h
  cases h

theorem isPyWS_eq_false_of_isDigit {c : Char} (h : c.isDigit = true) :
    isPyWS c = false := by
  unfold isPyWS
  have h1 : c ≠ ' ' := ne_of_isDigit h (by decide)
  have h2 : c ≠ '\t' := ne_of_isDigit h (by decide)
  have h3 : c ≠ '\n' := ne_of_isDigit h (by decide)
  have h4 : c ≠ '\r' := ne_of_isDigit h (by decide)
  have h5 : c ≠ '\x0b' := ne_of_isDigit h (by decide)
  have h6 : c ≠ '\x0c' := ne_of_isDigit h (by decide)
  simp [h1, h2, h3, h4, h5, h6]

theorem takeWhile_all {p : Char → Bool} (A : List Char)
    (h : ∀ c ∈ A, p c = true) : A.takeWhile p = A := by
  induction A with
  | nil => rfl
  | cons c t ih =>
    rw [List.takeWhile_cons]
    simp only [h c (List.mem_cons_self c t), if_true]
    rw [ih (fun x hx => h x (List.mem_cons_of_mem c hx))]

theorem dropWhile_all {p : Char → Bool} (A : List Char)
    (h : ∀ c ∈ A, p c = true) : A.dropWhile p = [] := by
  induction A with
  | nil => rfl
  | cons c t ih =>
    rw [List.dropWhile_cons]
    simp only [h c (List.mem_cons_self c t), if_true]
    exact ih (fun x hx => h x (List.mem_cons_of_mem c hx))

theorem takeWhile_append_stop {p : Char → Bool} (A : List Char) (b : Char)
    (B : List Char) (hA : ∀ c ∈ A, p c = true) (hb : p b = false) :
    (A ++ b :: B).takeWhile p = A ∧ (A ++ b :: B).dropWhile p = b :: B := by
  induction A with
  | nil => simp [List.takeWhile_cons, List.dropWhile_cons, hb]
  | cons c t ih =>
    have hc := hA c (List.mem_cons_self c t)
    have iht := ih (fun x hx => hA x (List.mem_cons_of_mem c hx))
    constructor
    · rw [List.cons_append, List.takeWhile_cons]
      simp only [hc, if_true]
      rw [iht.1]
    · rw [List.cons_append, List.dropWhile_cons]
      simp only [hc, if_true]
      exact iht.2

theorem digitsVal_replicate_zero (k : Nat) :
    digitsVal (List.replicate k '0') = 0 := by
  induction k with
  | zero => rfl
  | succ k ih =>
    rw [List.replicate_succ, digitsVal_cons, ih]
    have h0 : ('0').toNat = 48 := rfl
    simp [h0]

theorem parseMantissa_digits (A : Str) (hA : ∀ c ∈ A, c.isDigit = true)
    (hne : A ≠ []) : parseMantissa A = some (digitsVal A, 0, []) := by
  unfold parseMantissa
  rw [takeWhile_all A hA, dropWhile_all A hA]
  simp [hne]

theorem parseMantissa_point (A B : Str) (hA : ∀ c ∈ A, c.isDigit = true)
    (hB : ∀ c ∈ B, c.isDigit = true) (hne : A ≠ []) :
    parseMantissa (A ++ '.' :: B) = some (digitsVal (A ++ B), B.length, []) := by
  unfold parseMantissa
  obtain ⟨ht, hd⟩ := takeWhile_append_stop A '.' B hA (by decide)
  rw [ht, hd]
  simp only [takeWhile_all B hB, dropWhile_all B hB]
  simp [hne]

theorem pySign_neg (r : Str) : pySign ('-' :: r) = (-1, r) := by
  simp [pySign]

theorem pySign_digit (c : Char) (r : Str) (hc : c.isDigit = true) :
    pySign (c :: r) = (1, c :: r) := by
  have h1 : c ≠ '+' := ne_of_isDigit hc (by decide)
  have h2 : c ≠ '-' := ne_of_isDigit hc (by decide)
  simp [pySign, h1, h2]

theorem mem_of_getLast?_eq {α : Type} {l : List α} {c : α}
    (h : l.getLast? = some c) : c ∈ l := by
  rcases List.mem_getLast?_eq_getLast (show c ∈ l.getLast? from h) with ⟨hne, rfl⟩
  exact List.getLast_mem hne

/-- Reading back the decimal form of an integer with `float` widens it. -/
theorem pyFloatOfStr_intRepr (n : Int) : pyFloatOfStr (intRepr n) = some ⟨n, 0⟩ := by
  by_cases hn : n < 0
  · have hds := natToDigits_all_digit n.natAbs
    have hne := natToDigits_ne_nil n.natAbs
    have hrepr : intRepr n = '-' :: natToDigits n.natAbs := by
      rw [intRepr, if_pos hn]
    have hstrip : pyStrip ('-' :: natToDigits n.natAbs)
        = '-' :: natToDigits n.natAbs := by
      apply pyStrip_eq_self
      · intro c hc
        simp only [List.head?_cons, Option.some.injEq] at hc
        subst hc
        decide
      · intro c hc
        rw [show ('-' :: natToDigits n.natAbs) = ['-'] ++ natToDigits n.natAbs
            from rfl,
          List.getLast?_append_of_ne_nil ['-'] hne] at hc
        exact isPyWS_eq_false_of_isDigit (hds c (mem_of_getLast?_eq hc))
    simp only [pyFloatOfStr, hrepr, hstrip, pySign_neg]
    rw [parseMantissa_digits _ hds hne]
    simp only [parseExpPart, digitsVal_natToDigits]
    rw [if_pos (by norm_num)]
    simp only [Option.some.injEq, PyFloat.mk.injEq, and_true]
    have : ((0 : Int) - (0 : Nat)).toNat = 0 := by norm_num
    rw [this, pow_zero]
    omega
  · have hds := natToDigits_all_digit n.toNat
    have hne := natToDigits_ne_nil n.toNat
    have hrepr : intRepr n = natToDigits n.toNat := by
      rw [intRepr, if_neg hn]
    obtain ⟨c, t, hct⟩ : ∃ c t, natToDigits n.toNat = c :: t := by
      cases h : natToDigits n.toNat with
      | nil => exact absurd h hne
      | cons c t => exact ⟨c, t, rfl⟩
    have hcd : c.isDigit = true := hds c (hct ▸ List.mem_cons_self c t)
    have hstrip : pyStrip (natToDigits n.toNat) = natToDigits n.toNat := by
      apply pyStrip_eq_self
      · intro x hx
        rw [hct] at hx
        simp only [List.head?_cons, Option.some.injEq] at hx
        subst hx
        exact isPyWS_eq_false_of_isDigit hcd
      · intro x hx
        exact isPyWS_eq_false_of_isDigit (hds x (mem_of_getLast?_eq hx))
    have hsign : pySign (natToDigits n.toNat) = (1, natToDigits n.toNat) := by
      rw [hct]
      exact pySign_digit c t hcd
    simp only [pyFloatOfStr, hrepr, hstrip, hsign]
    rw [parseMantissa_digits _ hds hne]
    simp only [parseExpPart, digitsVal_natToDigits]
    rw [if_pos (by norm_num)]
    simp only [Option.some.injEq, PyFloat.mk.injEq, and_true]
    have : ((0 : Int) - (0 : Nat)).toNat = 0 := by norm_num
    rw [this, pow_zero]
    omega

theorem isEmpty_false_of_ne_nil {α : Type} {l : List α} (h : l ≠ []) :
    l.isEmpty = false := by
  cases l with
  | nil => exact absurd rfl h
  | cons a t => rfl

/-- Reading back the decimal form of an integer with `int` is the
identity. -/
theorem pyIntOfStr_intRepr (n : Int) : pyIntOfStr (intRepr n) = some n := by
  by_cases hn : n < 0
  · have hds := natToDigits_all_digit n.natAbs
    have hne := natToDigits_ne_nil n.natAbs
    have hrepr : intRepr n = '-' :: natToDigits n.natAbs := by
      rw [intRepr, if_pos hn]
    have hstrip : pyStrip ('-' :: natToDigits n.natAbs)
        = '-' :: natToDigits n.natAbs := by
      apply pyStrip_eq_self
      · intro c hc
        simp only [List.head?_cons, Option.some.injEq] at hc
        subst hc
        decide
      · intro c hc
        rw [show ('-' :: natToDigits n.natAbs) = ['-'] ++ natToDigits n.natAbs
            from rfl,
          List.getLast?_append_of_ne_nil ['-'] hne] at hc
        exact isPyWS_eq_false_of_isDigit (hds c (mem_of_getLast?_eq hc))
    simp only [pyIntOfStr, hrepr, hstrip, pySign_neg]
    rw [isEmpty_false_of_ne_nil hne, List.all_eq_true.mpr hds]
    simp only [Bool.not_false, Bool.and_self, if_true, digitsVal_natToDigits,
      Option.some.injEq]
    omega
  · have hds := natToDigits_all_digit n.toNat
    have hne := natToDigits_ne_nil n.toNat
    have hrepr : intRepr n = natToDigits n.toNat := by
      rw [intRepr, if_neg hn]
    obtain ⟨c, t, hct⟩ : ∃ c t, natToDigits n.toNat = c :: t := by
      cases h : natToDigits n.toNat with
      | nil => exact absurd h hne
      | cons c t => exact ⟨c, t, rfl⟩
    have hcd : c.isDigit = true := hds c (hct ▸ List.mem_cons_self c t)
    have hstrip : pyStrip (natToDigits n.toNat) = natToDigits n.toNat := by
      apply pyStrip_eq_self
      · intro x hx
        rw [hct] at hx
        simp only [List.head?_cons, Option.some.injEq] at hx
        subst hx
        exact isPyWS_eq_false_of_isDigit hcd
      · intro x hx
        exact isPyWS_eq_false_of_isDigit (hds x (mem_of_getLast?_eq hx))
    have hsign : pySign (natToDigits n.toNat) = (1, natToDigits n.toNat) := by
      rw [hct]
      exact pySign_digit c t hcd
    simp only [pyIntOfStr, hrepr, hstrip, hsign]
    rw [isEmpty_false_of_ne_nil hne, List.all_eq_true.mpr hds]
    simp only [Bool.not_false, Bool.and_self, if_true, digitsVal_natToDigits,
      Option.some.injEq]
    omega

/-- Parsing a signed digit/point body whose fraction is nonempty. -/
theorem pyFloatOfStr_signed (msign : Bool) (body : Str) (v fl : Nat)
    (hfl : 1 ≤ fl) (hne : body ≠ [])
    (hhead : ∀ c, body.head? = some c → c.isDigit = true)
    (hlast : ∀ c, body.getLast? = some c → c.isDigit = true)
    (hm : parseMantissa body = some (v, fl, [])) :
    pyFloatOfStr ((if msign then ['-'] else []) ++ body)
      = some ⟨(if msign then -1 else 1) * v, fl⟩ := by
  obtain ⟨c, t, hct⟩ : ∃ c t, body = c :: t := by
    cases h : body with
    | nil => exact absurd h hne
    | cons c t => exact ⟨c, t, rfl⟩
  have hcd : c.isDigit = true := hhead c (by rw [hct]; rfl)
  have hstrip : pyStrip ((if msign then ['-'] else []) ++ body)
      = (if msign then ['-'] else []) ++ body := by
    apply pyStrip_eq_self
    · intro x hx
      cases msign with
      | true =>
        rw [if_pos rfl] at hx
        simp only [List.cons_append, List.head?_cons, Option.some.injEq] at hx
        subst hx
        decide
      | false =>
        rw [if_neg (by decide)] at hx
        simp only [List.nil_append, hct, List.head?_cons,
          Option.some.injEq] at hx
        subst hx
        exact isPyWS_eq_false_of_isDigit hcd
    · intro x hx
      rw [List.getLast?_append_of_ne_nil _ hne] at hx
      exact isPyWS_eq_false_of_isDigit (hlast x hx)
  have hsign : pySign ((if msign then ['-'] else []) ++ body)
      = ((if msign then -1 else 1 : Int), body) := by
    cases msign with
    | true =>
      rw [if_pos rfl, if_pos rfl]
      exact pySign_neg body
    | false =>
      rw [if_neg (by decide), if_neg (by decide), List.nil_append, hct]
      exact pySign_digit c t hcd
  simp only [pyFloatOfStr, hstrip, hsign, hm]
  simp only [parseExpPart]
  rw [if_neg (by omega : ¬ (0 : Int) ≤ 0 - (fl : Int))]
  congr 1
  have : (-(0 - (fl : Int))).toNat = fl := by omega
  rw [this]

theorem mem_of_head?_eq {α : Type} {l : List α} {c : α}
    (h : l.head? = some c) : c ∈ l := by
  cases l with
  | nil => cases h
  | cons a t =>
    simp only [List.head?_cons, Option.some.injEq] at h
    subst h
    exact List.mem_cons_self a t

/-- `float(str(x))` recovers the value of `x` for every modelled float. -/
theorem pyFloatOfStr_floatRepr (f : PyFloat) :
    ∃ g : PyFloat, pyFloatOfStr (floatRepr f) = some g ∧ g.veq f = true := by
  have hds0d := natToDigits_all_digit (normFloat f).man.natAbs
  have hds0ne := natToDigits_ne_nil (normFloat f).man.natAbs
  have hcastQ : ((normFloat f).man.natAbs : ℚ)
      = |((normFloat f).man : ℚ)| := by
    simp [Int.cast_natAbs]
  have hvalf : PyFloat.val (normFloat f) = f.val := normFloat_val f
  by_cases hexp : (normFloat f).exp = 0
  · -- body is `digits ++ ".0"`
    have hpad : 1 - (natToDigits (normFloat f).man.natAbs).length = 0 := by
      have : 0 < (natToDigits (normFloat f).man.natAbs).length :=
        List.length_pos.mpr hds0ne
      omega
    have hrepr : floatRepr f
        = (if (normFloat f).man < 0 then ['-'] else [])
          ++ (natToDigits (normFloat f).man.natAbs ++ '.' :: ['0']) := by
      simp [floatRepr, hexp, hpad, List.append_assoc]
    have hm : parseMantissa (natToDigits (normFloat f).man.natAbs ++ '.' :: ['0'])
        = some (digitsVal (natToDigits (normFloat f).man.natAbs ++ ['0']), 1, []) := by
      have := parseMantissa_point (natToDigits (normFloat f).man.natAbs) ['0']
        hds0d (by intro c hc; simp only [List.mem_singleton] at hc; subst hc; decide)
        hds0ne
      simpa using this
    have hv : digitsVal (natToDigits (normFloat f).man.natAbs ++ ['0'])
        = (normFloat f).man.natAbs * 10 := by
      rw [digitsVal_append, digitsVal_natToDigits]
      norm_num
      decide
    have hhead : ∀ c, (natToDigits (normFloat f).man.natAbs ++ '.' :: ['0']).head?
        = some c → c.isDigit = true := by
      intro c hc
      rw [List.head?_append_of_ne_nil _ hds0ne] at hc
      exact hds0d c (mem_of_head?_eq hc)
    have hlast : ∀ c, (natToDigits (normFloat f).man.natAbs ++ '.' :: ['0']).getLast?
        = some c → c.isDigit = true := by
      intro c hc
      rw [List.getLast?_append_cons] at hc
      simp only [List.getLast?_cons_cons, List.getLast?_singleton,
        Option.some.injEq] at hc
      subst hc
      decide
    have hbody_ne : (natToDigits (normFloat f).man.natAbs ++ '.' :: ['0']) ≠ [] := by
      simp [hds0ne]
    by_cases hm0 : (normFloat f).man < 0
    · have hp := pyFloatOfStr_signed true _ _ 1 le_rfl hbody_ne hhead hlast hm
      rw [if_pos rfl, if_pos rfl] at hp
      refine ⟨⟨-1 * (digitsVal (natToDigits (normFloat f).man.natAbs ++ ['0'])), 1⟩,
        ?_, ?_⟩
      · rw [hrepr, if_pos hm0]
        exact hp
      · rw [PyFloat.veq_iff_val, ← hvalf]
        unfold PyFloat.val
        rw [hv, hexp]
        push_cast [hcastQ]
        rw [abs_of_neg (by exact_mod_cast hm0)]
        ring
    · have hp := pyFloatOfStr_signed false _ _ 1 le_rfl hbody_ne hhead hlast hm
      rw [if_neg (by decide), if_neg (by decide), List.nil_append] at hp
      refine ⟨⟨1 * (digitsVal (natToDigits (normFloat f).man.natAbs ++ ['0'])), 1⟩,
        ?_, ?_⟩
      · rw [hrepr, if_neg hm0]
        rw [List.nil_append]
        exact hp
      · rw [PyFloat.veq_iff_val, ← hvalf]
        unfold PyFloat.val
        rw [hv, hexp]
        push_cast [hcastQ]
        rw [abs_of_nonneg (by exact_mod_cast not_lt.mp hm0)]
        ring
  · -- body is `intpart ++ "." ++ fracpart` carved out of the padded digits
    set ds : Str := List.replicate
        ((normFloat f).exp + 1 - (natToDigits (normFloat f).man.natAbs).length) '0'
      ++ natToDigits (normFloat f).man.natAbs with hds
    have hdsd : ∀ c ∈ ds, c.isDigit = true := by
      intro c hc
      rcases List.mem_append.mp hc with h | h
      · rw [List.eq_of_mem_replicate h]
        decide
      · exact hds0d c h
    have hL : (normFloat f).exp + 1 ≤ ds.length := by
      rw [hds, List.length_append, List.length_replicate]
      omega
    have hA : ∀ c ∈ ds.take (ds.length - (normFloat f).exp), c.isDigit = true :=
      fun c hc => hdsd c (List.mem_of_mem_take hc)
    have hB : ∀ c ∈ ds.drop (ds.length - (normFloat f).exp), c.isDigit = true :=
      fun c hc => hdsd c (List.mem_of_mem_drop hc)
    have hAlen : (ds.take (ds.length - (normFloat f).exp)).length
        = ds.length - (normFloat f).exp := by
      rw [List.length_take]
      omega
    have hBlen : (ds.drop (ds.length - (normFloat f).exp)).length
        = (normFloat f).exp := by
      rw [List.length_drop]
      omega
    have hAne : ds.take (ds.length - (normFloat f).exp) ≠ [] := by
      intro h
      rw [h] at hAlen
      simp only [List.length_nil] at hAlen
      omega
    have hBne : ds.drop (ds.length - (normFloat f).exp) ≠ [] := by
      intro h
      rw [h] at hBlen
      simp only [List.length_nil] at hBlen
      omega
    have hrepr : floatRepr f
        = (if (normFloat f).man < 0 then ['-'] else [])
          ++ (ds.take (ds.length - (normFloat f).exp)
              ++ '.' :: ds.drop (ds.length - (normFloat f).exp)) := by
      simp [floatRepr, hexp, ← hds, List.append_assoc]
    have hm : parseMantissa (ds.take (ds.length - (normFloat f).exp)
          ++ '.' :: ds.drop (ds.length - (normFloat f).exp))
        = some (digitsVal ds, (normFloat f).exp, []) := by
      rw [parseMantissa_point _ _ hA hB hAne]
      rw [List.take_append_drop, hBlen]
    have hv : digitsVal ds = (normFloat f).man.natAbs := by
      rw [hds, digitsVal_append, digitsVal_replicate_zero,
        digitsVal_natToDigits]
      ring
    have hhead : ∀ c, (ds.take (ds.length - (normFloat f).exp)
          ++ '.' :: ds.drop (ds.length - (normFloat f).exp)).head?
        = some c → c.isDigit = true := by
      intro c hc
      rw [List.head?_append_of_ne_nil _ hAne] at hc
      exact hA c (mem_of_head?_eq hc)
    have hlast : ∀ c, (ds.take (ds.length - (normFloat f).exp)
          ++ '.' :: ds.drop (ds.length - (normFloat f).exp)).getLast?
        = some c → c.isDigit = true := by
      intro c hc
      rw [List.append_cons, List.getLast?_append_of_ne_nil _ hBne] at hc
      exact hB c (mem_of_getLast?_eq hc)
    have hbody_ne : (ds.take (ds.length - (normFloat f).exp)
        ++ '.' :: ds.drop (ds.length - (normFloat f).exp)) ≠ [] := by
      simp [hAne]
    have hfl : 1 ≤ (normFloat f).exp := by omega
    by_cases hm0 : (normFloat f).man < 0
    · have hp := pyFloatOfStr_signed true _ _ _ hfl hbody_ne hhead hlast hm
      rw [if_pos rfl, if_pos rfl] at hp
      refine ⟨⟨-1 * (digitsVal ds), (normFloat f).exp⟩, ?_, ?_⟩
      · rw [hrepr, if_pos hm0]
        exact hp
      · rw [PyFloat.veq_iff_val, ← hvalf]
        unfold PyFloat.val
        rw [hv]
        push_cast [hcastQ]
        rw [abs_of_neg (by exact_mod_cast hm0)]
        ring
    · have hp := pyFloatOfStr_signed false _ _ _ hfl hbody_ne hhead hlast hm
      rw [if_neg (by decide), if_neg (by decide), List.nil_append] at hp
      refine ⟨⟨1 * (digitsVal ds), (normFloat f).exp⟩, ?_, ?_⟩
      · rw [hrepr, if_neg hm0, List.nil_append]
        exact hp
      · rw [PyFloat.veq_iff_val, ← hvalf]
        unfold PyFloat.val
        rw [hv]
        push_cast [hcastQ]
        rw [abs_of_nonneg (by exact_mod_cast not_lt.mp hm0)]
        ring

theorem pyStrip_eq_self_of_no_ws (s : Str) (h : ∀ c ∈ s, isPyWS c = false) :
    pyStrip s = s :=
  pyStrip_eq_self s (fun c hc => h c (mem_of_head?_eq hc))
    (fun c hc => h c (mem_of_getLast?_eq hc))

/-- Every character of a rendered float is a digit, `.` or `-`. -/
theorem floatRepr_chars (f : PyFloat) :
    ∀ c ∈ floatRepr f, c.isDigit = true ∨ c = '.' ∨ c = '-' := by
  intro c hc
  have hds0d := natToDigits_all_digit (normFloat f).man.natAbs
  have hdsd : ∀ x ∈ List.replicate
      ((normFloat f).exp + 1 - (natToDigits (normFloat f).man.natAbs).length) '0'
      ++ natToDigits (normFloat f).man.natAbs, x.isDigit = true := by
    intro x hx
    rcases List.mem_append.mp hx with h | h
    · rw [List.eq_of_mem_replicate h]
      decide
    · exact hds0d x h
  have hsign : ∀ x ∈ (if (normFloat f).man < 0 then ['-'] else ([] : Str)),
      x = '-' := by
    intro x hx
    by_cases hm : (normFloat f).man < 0
    · rw [if_pos hm] at hx
      simpa using hx
    · rw [if_neg hm] at hx
      cases hx
  simp only [floatRepr] at hc
  by_cases hexp : (normFloat f).exp = 0
  · rw [if_pos hexp] at hc
    rcases List.mem_append.mp hc with h | h
    · rcases List.mem_append.mp h with h' | h'
      · exact Or.inr (Or.inr (hsign c h'))
      · exact Or.inl (hdsd c h')
    · rcases List.mem_cons.mp h with h' | h'
      · exact Or.inr (Or.inl h')
      · left
        simp only [List.mem_singleton] at h'
        subst h'
        decide
  · rw [if_neg hexp] at hc
    rcases List.mem_append.mp hc with h | h
    · rcases List.mem_append.mp h with h' | h'
      · exact Or.inr (Or.inr (hsign c h'))
      · exact Or.inl (hdsd c (List.mem_of_mem_take h'))
    · rcases List.mem_cons.mp h with h' | h'
      · exact Or.inr (Or.inl h')
      · exact Or.inl (hdsd c (List.mem_of_mem_drop h'))

/-- Every character of a rendered int is a digit or `-`. -/
theorem intRepr_chars (n : Int) :
    ∀ c ∈ intRepr n, c.isDigit = true ∨ c = '-' := by
  intro c hc
  unfold intRepr at hc
  by_cases hn : n < 0
  · rw [if_pos hn] at hc
    rcases List.mem_cons.mp hc with h | h
    · exact Or.inr h
    · exact Or.inl (natToDigits_all_digit n.natAbs c h)
  · rw [if_neg hn] at hc
    exact Or.inl (natToDigits_all_digit n.toNat c hc)

theorem not_mem_floatRepr {c : Char} (hd : c.isDigit = false)
    (h1 : c ≠ '.') (h2 : c ≠ '-') (f : PyFloat) : c ∉ floatRepr f := by
  intro hc
  rcases floatRepr_chars f c hc with h | h | h
  · rw [h] at hd
    cases hd
  · exact h1 h
  · exact h2 h

theorem not_mem_intRepr {c : Char} (hd : c.isDigit = false)
    (h2 : c ≠ '-') (n : Int) : c ∉ intRepr n := by
  intro hc
  rcases intRepr_chars n c hc with h | h
  · rw [h] at hd
    cases hd
  · exact h2 h

theorem floatRepr_ne_nil (f : PyFloat) : floatRepr f ≠ [] := by
  simp only [floatRepr]
  by_cases hexp : (normFloat f).exp = 0
  · rw [if_pos hexp]
    simp
  · rw [if_neg hexp]
    simp

theorem intRepr_ne_nil (n : Int) : intRepr n ≠ [] := by
  unfold intRepr
  by_cases hn : n < 0
  · rw [if_pos hn]
    simp
  · rw [if_neg hn]
    exact natToDigits_ne_nil n.toNat

theorem floatRepr_no_ws (f : PyFloat) : ∀ c ∈ floatRepr f, isPyWS c = false := by
  intro c hc
  rcases floatRepr_chars f c hc with h | h | h
  · exact isPyWS_eq_false_of_isDigit h
  · subst h; decide
  · subst h; decide

theorem intRepr_no_ws (n : Int) : ∀ c ∈ intRepr n, isPyWS c = false := by
  intro c hc
  rcases intRepr_chars n c hc with h | h
  · exact isPyWS_eq_false_of_isDigit h
  · subst h; decide

example : spectrum_to_string [.int 1, .int 3, .int 5]
    [⟨2300, 1⟩, ⟨0, 1⟩, ⟨52, 1⟩] [⟨0, 1⟩, ⟨0, 1⟩, ⟨1800, 1⟩]
    = .ok ("1,230.0,0.0/5,5.2,180.0").toList := by decide

example : string_to_spectrum ("1,230.0,0.0/5,5.2,180.0").toList
    = .ok ([⟨1, 0⟩, ⟨5, 0⟩], [⟨2300, 1⟩, ⟨52, 1⟩], [⟨0, 1⟩, ⟨1800, 1⟩]) := by
  decide

example : string_to_spectrum [] = .error .unpackEntry := by decide

/-! ### Claim C10 -/
/-- C10: `string_to_spectrum` applied to the empty string raises the
malformed-entry (unpack) error rather than returning three empty
sequences — so an "empty string" encode policy for the all-zero spectrum
would produce output that `string_to_spectrum` rejects. -/
theorem claim10_empty_string_rejected :
    string_to_spectrum [] = .error .unpackEntry := by decide

/-! ### Claim C9 -/
/-- C9: `spectrum_to_string` checks the length-mismatch condition before
any other processing — unequal lengths give the length-mismatch error
with nothing filtered or emitted — and when the zero-magnitude filter
removes every entry (`encode([1],[0.0],[0.0])`), the reference behaviour
raises (the empty `zip(*[])` unpacking) instead of returning a string. -/
theorem claim9_length_check_first (o : List PyNum) (m p : List PyFloat)
    (h : o.length ≠ m.length ∨ o.length ≠ p.length) :
    spectrum_to_string o m p = .error .lengthMismatch ∧
      spectrum_to_string [.int 1] [⟨0, 1⟩] [⟨0, 1⟩] = .error .emptyZip := by
  constructor
  · unfold spectrum_to_string
    rw [if_pos h]
  · decide

theorem claim9_witness :
    spectrum_to_string [.int 1] [] [] = .error .lengthMismatch ∧
      spectrum_to_string [.int 1] [⟨0, 1⟩] [⟨0, 1⟩] = .error .emptyZip :=
  claim9_length_check_first [.int 1] [] [] (by decide)

/-! ### Claim C3 -/
/-- C3 counterexample: the ASCII apostrophe (U+0027) belongs to the
claim's stated allowed set, yet `_validate_property` rejects a one-char
apostrophe string for the restricted-text field `unique_id` (length 1 is
within bounds), because the source set contains the mojibake characters
`â`, `€`, `˜` instead of the apostrophe. -/
theorem claim3_counterexample :
    validate_property .unique_id [Char.ofNat 39] false
      = .error (.disallowedChars .unique_id)
    ∧ Char.ofNat 0x20AC ∈ ALLOWED_CHARS ∧ Char.ofNat 39 ∉ ALLOWED_CHARS := by
  decide

/-- C3 (amended): character-set validation accepts exactly the literal
`ALLOWED_CHARS` set of the source — letters, digits, space and the
punctuation `+-._:|<>?!$%&=()[]{}\/@â€˜*` (the mojibake triple standing
where the claim lists an apostrophe): any in-set string passes the check
(length permitting) and any string with an out-of-set character fails
with the disallowed-characters error. -/
theorem claim3_charset_exact (f : Field) (s : Str) :
    ((∀ c ∈ s, c ∈ ALLOWED_CHARS) → s.length ≤ MAX_LENGTHS f →
      validate_property f s false = .ok s) ∧
    ((∃ c ∈ s, c ∉ ALLOWED_CHARS) →
      validate_property f s false = .error (.disallowedChars f)) := by
  constructor
  · intro hall hlen
    unfold validate_property
    rw [if_neg (by simp)]
    rw [if_neg ?hany, if_neg (by omega)]
    case hany =>
      simp only [List.any_eq_true, not_exists]
      intro c
      rintro ⟨hc, hbad⟩
      rw [Bool.not_eq_true', ← Bool.not_eq_true] at hbad
      exact hbad (List.elem_iff.mpr (hall c hc))
  · rintro ⟨c, hc, hnot⟩
    unfold validate_property
    rw [if_neg (by simp)]
    rw [if_pos ?hany]
    case hany =>
      simp only [List.any_eq_true]
      refine ⟨c, hc, ?_⟩
      simp only [Bool.not_eq_true']
      rw [← Bool.not_eq_true]
      intro hmem
      exact hnot (List.elem_iff.mp hmem)

theorem claim3_witness :
    validate_property .sell_country ("D€").toList false = .ok (("D€").toList) ∧
      validate_property .sell_country [Char.ofNat 39] false
        = .error (.disallowedChars .sell_country) :=
  ⟨(claim3_charset_exact .sell_country (("D€").toList)).1 (by decide) (by decide),
   (claim3_charset_exact .sell_country [Char.ofNat 39]).2
     ⟨Char.ofNat 39, by decide, by decide⟩⟩

/-! ### Claim C4 -/
/-- C4: per-field check order in `_validate_property` — the digit-only
check (when applicable) fires first, then the character-set check, then
the length check; each failure identifies the field and the rule, and an
empty or non-digit-containing value fails the digit-only check. -/
theorem claim4_check_order (f : Field) (v : Str) :
    (pyIsDigit v = false →
      validate_property f v true = .error (.digitsOnly f)) ∧
    (∀ d : Bool, (d = true → pyIsDigit v = true) →
      v.any (fun c => !(ALLOWED_CHARS.contains c)) = true →
      validate_property f v d = .error (.disallowedChars f)) ∧
    (∀ d : Bool, (d = true → pyIsDigit v = true) →
      v.any (fun c => !(ALLOWED_CHARS.contains c)) = false →
      MAX_LENGTHS f < v.length →
      validate_property f v d = .error (.maxLength f)) ∧
    (validate_property f [] true = .error (.digitsOnly f)) ∧
    (∀ c ∈ v, c.isDigit = false →
      validate_property f v true = .error (.digitsOnly f)) := by
  refine ⟨?_, ?_, ?_, ?_, ?_⟩
  · intro h
    unfold validate_property
    rw [if_pos (by simp [h])]
  · intro d hd hany
    unfold validate_property
    rw [if_neg ?hdig, if_pos hany]
    case hdig =>
      cases d with
      | false => simp
      | true => simp [hd rfl]
  · intro d hd hany hlen
    unfold validate_property
    rw [if_neg ?hdig2, if_neg (by rw [hany]; simp), if_pos hlen]
    case hdig2 =>
      cases d with
      | false => simp
      | true => simp [hd rfl]
  · unfold validate_property
    rw [if_pos (by decide)]
  · intro c hc hcd
    have hall : v.all Char.isDigit = false := by
      rw [List.all_eq_false]
      exact ⟨c, hc, by simp [hcd]⟩
    have hdig : pyIsDigit v = false := by
      unfold pyIsDigit
      rw [hall, Bool.and_false]
    unfold validate_property
    rw [if_pos (by simp [hdig])]

theorem claim4_witness :
    validate_property .user_id ("a;").toList true
        = .error (.digitsOnly .user_id) ∧
      validate_property .unique_id (";x").toList false
        = .error (.disallowedChars .unique_id) ∧
      validate_property .sell_country ("ABC").toList false
        = .error (.maxLength .sell_country) :=
  ⟨(claim4_check_order .user_id (("a;").toList)).1 (by decide),
   (claim4_check_order .unique_id ((";x").toList)).2.1 false (by decide) (by decide),
   (claim4_check_order .sell_country (("ABC").toList)).2.2.1 false (by decide)
     (by decide) (by decide)⟩

/-! ### Claims C6 and C5: the line scanner -/
theorem processLine_ignore (st : Sections × Option Str) (l : Str)
    (h1 : endsWithChar ']' (pyStrip l) = false)
    (h2 : l.contains '=' = false) :
    processLine st l = .ok st := by
  unfold processLine
  rw [h1, h2]
  simp

/-- C6 (amended): in the `from_txt` scan a line that neither ends in `]`
(after stripping) nor contains `=` is silently ignored in every state —
this covers the format-identifier header and stray text — but a line
containing `=` encountered before any section has been opened raises
(the `data[None]` `KeyError` when the split has two pieces, the unpack
`ValueError` otherwise) instead of being ignored. -/
theorem claim6_unrecognized_lines (st : Sections × Option Str) (l : Str)
    (h1 : endsWithChar ']' (pyStrip l) = false)
    (h2 : l.contains '=' = false) :
    processLine st l = .ok st ∧
      (∀ l' d, endsWithChar ']' (pyStrip l') = false → l'.contains '=' = true →
        ∃ e, processLine (d, none) l' = .error e) := by
  refine ⟨processLine_ignore st l h1 h2, ?_⟩
  intro l' d h1' h2'
  unfold processLine
  rw [h1', h2']
  rw [if_neg (by decide), if_pos rfl]
  rcases hsp : pySplit '=' l' with _ | ⟨k, _ | ⟨v, _ | ⟨x, xs⟩⟩⟩
  · exact ⟨.unpackLine, rfl⟩
  · exact ⟨.unpackLine, rfl⟩
  · exact ⟨.keyErrorNone, rfl⟩
  · exact ⟨.unpackLine, rfl⟩

set_option maxRecDepth 100000 in
/-- C6 counterexample: `demoText` decodes, but prepending the stray line
`x = y` before the first section makes `from_txt` fail with the
`data[None]` `KeyError`, where the claim says stray lines are silently
ignored and never cause an error. -/
theorem claim6_counterexample :
    isOkB (from_txt demoText) = true ∧
      from_txt (("x = y\n").toList ++ demoText) = .error .keyErrorNone := by
  constructor
  · decide
  · decide

theorem claim6_witness :
    processLine ([], none) (("TUDHDB_TXT_v01").toList) = .ok ([], none) ∧
      (∀ l' d, endsWithChar ']' (pyStrip l') = false → l'.contains '=' = true →
        ∃ e, processLine (d, none) l' = .error e) :=
  claim6_unrecognized_lines ([], none) (("TUDHDB_TXT_v01").toList)
    (by decide) (by decide)

/-- C5 (amended): within an open section a line with exactly one `=` is
parsed as the claim says — key = stripped text before the `=`, value =
stripped text after it up to the first `;` — but a line whose value
portion contains a further `=` does not parse: the two-name unpacking of
`line.split('=')` raises a `ValueError` instead. -/
theorem claim5_kv_parse (data : Sections) (sec k v : Str) (d : Dict)
    (hd : dictGet? data sec = some d)
    (hne : endsWithChar ']' (pyStrip (k ++ '=' :: v)) = false)
    (hk : '=' ∉ k) (hv : '=' ∉ v) :
    processLine (data, some sec) (k ++ '=' :: v)
      = .ok (dictSet data sec
          (dictSet d (pyStrip k)
            (pyStrip (v.takeWhile (fun c => c != ';')))), some sec) := by
  unfold processLine
  rw [hne]
  rw [if_neg (by decide)]
  have hcont : (k ++ '=' :: v).contains '=' = true :=
    List.elem_iff.mpr (by simp)
  rw [hcont, if_pos rfl]
  have hsplit : pySplit '=' (k ++ '=' :: v) = [k, v] := by
    rw [pySplit_append '=' k _ hk, pySplit_cons_sep, pySplit_of_not_mem '=' v hv]
    simp
  rw [hsplit]
  simp only [hd, pySplit_headD]

set_option maxRecDepth 100000 in
/-- C5 counterexample: an otherwise valid document whose `Description`
value contains a further `=` (`Description = a=b;`) makes `from_txt`
raise the unpack `ValueError`, where the claim says the value would be
parsed as `a=b`. -/
theorem claim5_counterexample :
    from_txt (("TUDHDB_TXT_v01\n[User Detail]\nLab_ID = 1234;\nUser_ID = 1;\n[EUT]\nCategory = 1;\nSub_Category = 2;\nUnique_ID = u1;\nManufacturer = Acme;\nProduct_code = P1;\nSell_Country = DE;\nSell_Year = 2020;\nRated_Power = NA;\nNominal_Frequency = 50.0;\nNominal_Voltage = 230;\nSupply_Source = 1;\nDescription = a=b;\n[Harmonics]\nCurrent_Harmonics = h;\nVoltage_Harmonics = h;\n").toList)
      = .error .unpackLine := by decide

set_option maxRecDepth 100000 in
theorem claim5_witness :
    processLine ([(['A'], [])], some ['A'])
        (("Key = 42 ;junk").toList)
      = .ok ([(['A'], [(("Key").toList, ("42").toList)])], some ['A']) := by
  have h := claim5_kv_parse [(['A'], [])] ['A'] (("Key ").toList)
    ((" 42 ;junk").toList) [] (by decide) (by decide) (by decide) (by decide)
  exact h

/-! ### Claims C7 and C2: the waveform block -/
theorem except_bind_ok {ε α β : Type} {e : Except ε α} {k : α → Except ε β}
    {r : β} (h : (e >>= k) = .ok r) : ∃ v, e = .ok v ∧ k v = .ok r := by
  cases e with
  | error er => exact absurd h (by simp [Bind.bind, Except.bind])
  | ok v => exact ⟨v, rfl, by simpa [Bind.bind, Except.bind] using h⟩

theorem mapM_toFloat_ok : ∀ (l : List Str) (r : List PyFloat),
    l.mapM pyFloatOfStr = some r → l.mapM toFloat = .ok r := by
  intro l
  induction l with
  | nil =>
    intro r h
    simp only [List.mapM_nil] at h
    cases h
    rfl
  | cons a t ih =>
    intro r h
    rw [List.mapM_cons] at h
    cases ha : pyFloatOfStr a with
    | none => rw [ha] at h; cases h
    | some x =>
      rw [ha] at h
      cases ht : t.mapM pyFloatOfStr with
      | none => rw [ht] at h; cases h
      | some xs =>
        rw [ht] at h
        have hr : r = x :: xs := by
          have h2 : (some (x :: xs) : Option (List PyFloat)) = some r := h
          cases h2
          rfl
        rw [List.mapM_cons]
        have htf : toFloat a = .ok x := by unfold toFloat; rw [ha]
        rw [htf, ih xs ht, hr]
        rfl

theorem mapM_toFloat_error : ∀ (l : List Str),
    (∃ x ∈ l, pyFloatOfStr x = none) →
    ∃ y, l.mapM toFloat = .error (.floatConv y) ∧ pyFloatOfStr y = none := by
  intro l
  induction l with
  | nil =>
    rintro ⟨x, hx, _⟩
    cases hx
  | cons a t ih =>
    rintro ⟨x, hx, hnone⟩
    cases ha : pyFloatOfStr a with
    | none =>
      refine ⟨a, ?_, ha⟩
      rw [List.mapM_cons]
      have htf : toFloat a = .error (.floatConv a) := by unfold toFloat; rw [ha]
      rw [htf]
      rfl
    | some fa =>
      have hxt : x ∈ t := by
        rcases List.mem_cons.mp hx with h | h
        · subst h; rw [ha] at hnone; cases hnone
        · exact h
      obtain ⟨y, herr, hy⟩ := ih ⟨x, hxt, hnone⟩
      refine ⟨y, ?_, hy⟩
      rw [List.mapM_cons]
      have htf : toFloat a = .ok fa := by unfold toFloat; rw [ha]
      rw [htf, herr]
      rfl

theorem mapM_toFloat_floatRepr : ∀ (l : List PyFloat),
    ∃ r, (l.map floatRepr).mapM toFloat = .ok r ∧
      List.Forall₂ (fun a b => a.veq b = true) r l := by
  intro l
  induction l with
  | nil => exact ⟨[], rfl, List.Forall₂.nil⟩
  | cons a t ih =>
    obtain ⟨r, hr, hfa⟩ := ih
    obtain ⟨g, hg, hveq⟩ := pyFloatOfStr_floatRepr a
    refine ⟨g :: r, ?_, List.Forall₂.cons hveq hfa⟩
    rw [List.map_cons, List.mapM_cons]
    have htf : toFloat (floatRepr a) = .ok g := by unfold toFloat; rw [hg]
    rw [htf, hr]
    rfl

theorem validate_property_ok_eq {f : Field} {v : Str} {d : Bool} {w : Str}
    (h : validate_property f v d = .ok w) : w = v := by
  unfold validate_property at h
  split at h
  · cases h
  · split at h
    · cases h
    · split at h
      · cases h
      · cases h
        rfl

theorem pandaInit_stores {l u : Str} {c sc : Int} {ui ma pc co sy : Str}
    {rp : PyVal} {nf : PyFloat} {nv : PyVal} {ss : Int} {de ch vh : Str}
    {sr : Option Int} {cd vd : Option (List PyFloat)} {r : PandaFile}
    (h : pandaInit l u c sc ui ma pc co sy rp nf nv ss de ch vh sr cd vd
      = .ok r) :
    r.rated_power = rp ∧ r.nominal_frequency = nf ∧ r.nominal_voltage = nv ∧
    r.supply_source = ss ∧ r.current_harmonics = ch ∧
    r.voltage_harmonics = vh ∧ r.sample_rate = sr ∧ r.current_data = cd ∧
    r.voltage_data = vd := by
  unfold pandaInit at h
  obtain ⟨v1, h1, h⟩ := except_bind_ok h
  obtain ⟨v2, h2, h⟩ := except_bind_ok h
  obtain ⟨v3, h3, h⟩ := except_bind_ok h
  obtain ⟨v4, h4, h⟩ := except_bind_ok h
  obtain ⟨v5, h5, h⟩ := except_bind_ok h
  obtain ⟨v6, h6, h⟩ := except_bind_ok h
  obtain ⟨v7, h7, h⟩ := except_bind_ok h
  obtain ⟨v8, h8, h⟩ := except_bind_ok h
  obtain ⟨v9, h9, h⟩ := except_bind_ok h
  obtain ⟨v10, h10, h⟩ := except_bind_ok h
  injection h with h
  subst h
  exact ⟨rfl, rfl, rfl, rfl, rfl, rfl, rfl, rfl, rfl⟩

theorem buildRecord_wave {data : Sections} {r : PandaFile}
    (h : buildRecord data = .ok r) :
    ∃ w, resolveWave data = .ok w ∧ r.sample_rate = w.1 ∧
      r.current_data = w.2.1 ∧ r.voltage_data = w.2.2 := by
  unfold buildRecord at h
  obtain ⟨x1, g1, h⟩ := except_bind_ok h
  obtain ⟨x2, g2, h⟩ := except_bind_ok h
  obtain ⟨x3, g3, h⟩ := except_bind_ok h
  obtain ⟨x4, g4, h⟩ := except_bind_ok h
  obtain ⟨x5, g5, h⟩ := except_bind_ok h
  obtain ⟨x6, g6, h⟩ := except_bind_ok h
  obtain ⟨x7, g7, h⟩ := except_bind_ok h
  obtain ⟨x8, g8, h⟩ := except_bind_ok h
  obtain ⟨x9, g9, h⟩ := except_bind_ok h
  obtain ⟨x10, g10, h⟩ := except_bind_ok h
  obtain ⟨x11, g11, h⟩ := except_bind_ok h
  obtain ⟨x12, g12, h⟩ := except_bind_ok h
  obtain ⟨x13, g13, h⟩ := except_bind_ok h
  obtain ⟨x14, g14, h⟩ := except_bind_ok h
  obtain ⟨x15, g15, h⟩ := except_bind_ok h
  obtain ⟨x16, g16, h⟩ := except_bind_ok h
  obtain ⟨x17, g17, h⟩ := except_bind_ok h
  obtain ⟨x18, g18, h⟩ := except_bind_ok h
  obtain ⟨x19, g19, h⟩ := except_bind_ok h
  obtain ⟨x20, g20, h⟩ := except_bind_ok h
  obtain ⟨x21, g21, h⟩ := except_bind_ok h
  obtain ⟨wv, gw, h⟩ := except_bind_ok h
  obtain ⟨_, _, _, _, _, _, hsr, hcd, hvd⟩ := pandaInit_stores h
  exact ⟨wv, gw, hsr, hcd, hvd⟩

theorem except_ok_bind {ε α β : Type} (a : α) (k : α → Except ε β) :
    (Except.ok a >>= k) = k a := rfl

theorem except_error_bind {ε α β : Type} (e : ε) (k : α → Except ε β) :
    ((Except.error e : Except ε α) >>= k) = Except.error e := rfl

/-- C7: the `Waveforms` section is optional as a whole— absent section
means all three optional fields are set absent (also in the successfully
built record) — and when the section is present each of `Sampling_Rate`,
`Current_Data` and `Voltage_Data` is required (a missing one raises the
`KeyError` naming it), the data values being split on `,` with every
piece `float`-converted and a non-numeric piece raising the conversion
error. -/
theorem claim7_waveforms (data : Sections) :
    (dictGet? data kWaveforms = none →
      resolveWave data = .ok (none, none, none) ∧
      ∀ r, buildRecord data = .ok r →
        r.sample_rate = none ∧ r.current_data = none ∧ r.voltage_data = none) ∧
    (∀ w, dictGet? data kWaveforms = some w →
      (dictGet? w kSamplingRate = none →
        resolveWave data = .error (.keyError kSamplingRate)) ∧
      (∀ srs sr, dictGet? w kSamplingRate = some srs →
        pyIntOfStr srs = some sr →
        (dictGet? w kCurrentData = none →
          resolveWave data = .error (.keyError kCurrentData)) ∧
        (∀ cds, dictGet? w kCurrentData = some cds →
          ((∃ x ∈ pySplit ',' cds, pyFloatOfStr x = none) →
            ∃ y, resolveWave data = .error (.floatConv y)
              ∧ pyFloatOfStr y = none) ∧
          (∀ cd, (pySplit ',' cds).mapM pyFloatOfStr = some cd →
            (dictGet? w kVoltageData = none →
              resolveWave data = .error (.keyError kVoltageData)) ∧
            (∀ vds, dictGet? w kVoltageData = some vds →
              ((∃ x ∈ pySplit ',' vds, pyFloatOfStr x = none) →
                ∃ y, resolveWave data = .error (.floatConv y)
                  ∧ pyFloatOfStr y = none) ∧
              (∀ vd, (pySplit ',' vds).mapM pyFloatOfStr = some vd →
                resolveWave data
                  = .ok (some sr, some cd, some vd))))))) := by
  constructor
  · intro hW
    have hres : resolveWave data = .ok (none, none, none) := by
      unfold resolveWave
      rw [hW]
    refine ⟨hres, ?_⟩
    intro r hr
    obtain ⟨w, hw, h1, h2, h3⟩ := buildRecord_wave hr
    rw [hres] at hw
    injection hw with hw
    subst hw
    exact ⟨h1, h2, h3⟩
  · intro w hW
    have hunf : resolveWave data = (do
        let srs ← match dictGet? w kSamplingRate with
          | none => Except.error (Err.keyError kSamplingRate)
          | some v => Except.ok v
        let sr ← toInt srs
        let cds ← match dictGet? w kCurrentData with
          | none => Except.error (Err.keyError kCurrentData)
          | some v => Except.ok v
        let cd ← (pySplit ',' cds).mapM toFloat
        let vds ← match dictGet? w kVoltageData with
          | none => Except.error (Err.keyError kVoltageData)
          | some v => Except.ok v
        let vd ← (pySplit ',' vds).mapM toFloat
        Except.ok (some sr, some cd, some vd)) := by
      unfold resolveWave
      rw [hW]
    constructor
    · intro hsr
      rw [hunf]
      simp only [hsr, except_ok_bind, except_error_bind]
    · intro srs sr hsrs hsrv
      have htInt : toInt srs = .ok sr := by unfold toInt; rw [hsrv]
      constructor
      · intro hcd
        rw [hunf]
        simp only [hsrs, htInt, hcd, except_ok_bind, except_error_bind]
      · intro cds hcds
        constructor
        · intro hex
          obtain ⟨y, herr, hy⟩ := mapM_toFloat_error (pySplit ',' cds) hex
          refine ⟨y, ?_, hy⟩
          rw [hunf]
          simp only [hsrs, htInt, hcds, herr, except_ok_bind, except_error_bind]
        · intro cd hcd
          have hcdok : (pySplit ',' cds).mapM toFloat = .ok cd :=
            mapM_toFloat_ok _ _ hcd
          constructor
          · intro hvd
            rw [hunf]
            simp only [hsrs, htInt, hcds, hcdok, hvd, except_ok_bind,
              except_error_bind]
          · intro vds hvds
            constructor
            · intro hex
              obtain ⟨y, herr, hy⟩ := mapM_toFloat_error (pySplit ',' vds) hex
              refine ⟨y, ?_, hy⟩
              rw [hunf]
              simp only [hsrs, htInt, hcds, hcdok, hvds, herr,
                except_ok_bind, except_error_bind]
            · intro vd hvd
              rw [hunf]
              simp only [hsrs, htInt, hcds, hcdok, hvds,
                mapM_toFloat_ok _ _ hvd, except_ok_bind, except_error_bind]

set_option maxRecDepth 10000 in
theorem claim7_witness :
    resolveWave [(kWaveforms, [(kSamplingRate, ("5000").toList)])]
      = .error (.keyError kCurrentData) :=
  (((claim7_waveforms [(kWaveforms, [(kSamplingRate, ("5000").toList)])]).2
      [(kSamplingRate, ("5000").toList)] (by decide)).2
    (("5000").toList) 5000 (by decide) (by decide)).1 (by decide)

theorem resolveWave_shape {data : Sections}
    {w : Option Int × Option (List PyFloat) × Option (List PyFloat)}
    (h : resolveWave data = .ok w) :
    w = (none, none, none) ∨ ∃ a b c, w = (some a, some b, some c) := by
  cases hW : dictGet? data kWaveforms with
  | none =>
    unfold resolveWave at h
    rw [hW] at h
    injection h with h
    exact Or.inl h.symm
  | some wd =>
    unfold resolveWave at h
    rw [hW] at h
    cases h1 : dictGet? wd kSamplingRate with
    | none =>
      simp only [h1, except_error_bind, except_ok_bind] at h
      cases h
    | some srs =>
      simp only [h1, except_ok_bind] at h
      obtain ⟨sr, h2, h⟩ := except_bind_ok h
      cases h3 : dictGet? wd kCurrentData with
      | none =>
        simp only [h3, except_error_bind] at h
        cases h
      | some cds =>
        simp only [h3, except_ok_bind] at h
        obtain ⟨cd, h4, h⟩ := except_bind_ok h
        cases h5 : dictGet? wd kVoltageData with
        | none =>
          simp only [h5, except_error_bind] at h
          cases h
        | some vds =>
          simp only [h5, except_ok_bind] at h
          obtain ⟨vd, h6, h⟩ := except_bind_ok h
          injection h with h
          exact Or.inr ⟨sr, cd, vd, h.symm⟩

/-- C2 counterexample: direct construction does not enforce the
all-or-nothing waveform invariant — `__init__` accepts `sample_rate`
present with both data lists absent and yields the partially-present
record. -/
theorem claim2_counterexample :
    pandaInit (("1234").toList) (("1").toList) 1 2 [] [] [] (("DE").toList)
        (("2020").toList) (.str (("NA").toList)) ⟨500, 1⟩
        (.float ⟨2300, 1⟩) 1 [] [] [] (some 5000) none none
      = .ok ⟨("1234").toList, ("1").toList, ("1").toList, ("2").toList,
          [], [], [], ("DE").toList, ("2020").toList, .str (("NA").toList),
          ⟨500, 1⟩, .float ⟨2300, 1⟩, 1, [], [], [],
          some 5000, none, none⟩ := by decide

/-- C2 (amended): `from_txt` does maintain the all-or-nothing waveform
invariant — every record it successfully produces has `sample_rate`,
`current_data` and `voltage_data` jointly present or jointly absent —
but direct construction does not enforce it (see the counterexample). -/
theorem claim2_fromtxt_invariant (text : Str) (r : PandaFile)
    (h : from_txt text = .ok r) :
    r.sample_rate.isSome = r.current_data.isSome ∧
      r.sample_rate.isSome = r.voltage_data.isSome := by
  unfold from_txt at h
  obtain ⟨data, hdata, h⟩ := except_bind_ok h
  obtain ⟨w, hw, h1, h2, h3⟩ := buildRecord_wave h
  rcases resolveWave_shape hw with hsh | ⟨a, b, c, hsh⟩ <;>
    subst hsh <;> rw [h1, h2, h3] <;> exact ⟨rfl, rfl⟩

set_option maxRecDepth 100000 in
theorem claim2_witness :
    (PandaFile.mk (("1234").toList) (("1").toList) (("1").toList)
        (("2").toList) (("u1").toList) (("Acme").toList) (("P1").toList)
        (("DE").toList) (("2020").toList) (.str (("NA").toList)) ⟨500, 1⟩
        (.int 230) 1 (("test").toList) (("1,230.0,0.0").toList)
        (("1,230.0,0.0").toList) none none none).sample_rate.isSome
      = (PandaFile.mk (("1234").toList) (("1").toList) (("1").toList)
        (("2").toList) (("u1").toList) (("Acme").toList) (("P1").toList)
        (("DE").toList) (("2020").toList) (.str (("NA").toList)) ⟨500, 1⟩
        (.int 230) 1 (("test").toList) (("1,230.0,0.0").toList)
        (("1,230.0,0.0").toList) none none none).current_data.isSome ∧
    (PandaFile.mk (("1234").toList) (("1").toList) (("1").toList)
        (("2").toList) (("u1").toList) (("Acme").toList) (("P1").toList)
        (("DE").toList) (("2020").toList) (.str (("NA").toList)) ⟨500, 1⟩
        (.int 230) 1 (("test").toList) (("1,230.0,0.0").toList)
        (("1,230.0,0.0").toList) none none none).sample_rate.isSome
      = (PandaFile.mk (("1234").toList) (("1").toList) (("1").toList)
        (("2").toList) (("u1").toList) (("Acme").toList) (("P1").toList)
        (("DE").toList) (("2020").toList) (.str (("NA").toList)) ⟨500, 1⟩
        (.int 230) 1 (("test").toList) (("1,230.0,0.0").toList)
        (("1,230.0,0.0").toList) none none none).voltage_data.isSome :=
  claim2_fromtxt_invariant demoText _ (by decide)

/-! ### Claim C8: the spectrum round trip -/
theorem veq_refl (a : PyFloat) : a.veq a = true := by
  simp [PyFloat.veq]

theorem flatten_dropLast_intercalate (c : Char) :
    ∀ (parts : List Str), parts ≠ [] →
    ((parts.map (fun e => e ++ [c])).flatten).dropLast
      = intercalateChar c parts := by
  intro parts
  induction parts with
  | nil => intro h; exact absurd rfl h
  | cons p rest ih =>
    intro _
    cases rest with
    | nil =>
      show ((p ++ [c]) ++ [].flatten).dropLast = p
      simp [List.dropLast_concat]
    | cons q rest' =>
      show ((p ++ [c]) ++ ((q :: rest').map (fun e => e ++ [c])).flatten).dropLast
        = p ++ (c :: intercalateChar c (q :: rest'))
      have hne : ((q :: rest').map (fun e => e ++ [c])).flatten ≠ [] := by
        simp
      rw [List.dropLast_append_of_ne_nil _ hne, ih (by simp)]
      simp

theorem intercalateChar_cons_cons_ne_nil (c : Char) (p q : Str)
    (rest : List Str) : intercalateChar c (p :: q :: rest) ≠ [] := by
  show p ++ (c :: intercalateChar c (q :: rest)) ≠ []
  simp

theorem intercalateChar_getLast? (c : Char) :
    ∀ (parts : List Str) (q : Str), parts.getLast? = some q → q ≠ [] →
    (intercalateChar c parts).getLast? = q.getLast? := by
  intro parts
  induction parts with
  | nil => intro q h; cases h
  | cons p rest ih =>
    intro q hq hqne
    cases rest with
    | nil =>
      simp only [List.getLast?_singleton, Option.some.injEq] at hq
      subst hq
      rfl
    | cons r rest' =>
      rw [List.getLast?_cons_cons] at hq
      show (p ++ (c :: intercalateChar c (r :: rest'))).getLast? = q.getLast?
      have hX : intercalateChar c (r :: rest') ≠ [] := by
        cases hre : rest' with
        | nil =>
          show r ≠ []
          rw [hre] at hq
          simp only [List.getLast?_singleton, Option.some.injEq] at hq
          subst hq
          exact hqne
        | cons s rest'' => exact intercalateChar_cons_cons_ne_nil c r s rest''
      rw [List.getLast?_append_cons]
      rw [show (c :: intercalateChar c (r :: rest'))
          = [c] ++ intercalateChar c (r :: rest') from rfl,
        List.getLast?_append_of_ne_nil [c] hX]
      exact ih q hq hqne

theorem pyNumStr_chars (n : PyNum) :
    ∀ c ∈ pyNumStr n, c.isDigit = true ∨ c = '.' ∨ c = '-' := by
  intro c hc
  cases n with
  | int k =>
    rcases intRepr_chars k c hc with h | h
    · exact Or.inl h
    · exact Or.inr (Or.inr h)
  | float f => exact floatRepr_chars f c hc

theorem pyNumStr_ne_nil (n : PyNum) : pyNumStr n ≠ [] := by
  cases n with
  | int k => exact intRepr_ne_nil k
  | float f => exact floatRepr_ne_nil f

theorem mem_entryStr (t : PyNum × PyFloat × PyFloat) {c : Char}
    (hc : c ∈ entryStr t) :
    c.isDigit = true ∨ c = '.' ∨ c = '-' ∨ c = ',' := by
  unfold entryStr at hc
  rcases List.mem_append.mp hc with h | h
  · rcases List.mem_append.mp h with h' | h'
    · rcases pyNumStr_chars t.1 c h' with h2 | h2 | h2
      · exact Or.inl h2
      · exact Or.inr (Or.inl h2)
      · exact Or.inr (Or.inr (Or.inl h2))
    · rcases List.mem_cons.mp h' with h2 | h2
      · exact Or.inr (Or.inr (Or.inr h2))
      · rcases floatRepr_chars t.2.1 c h2 with h3 | h3 | h3
        · exact Or.inl h3
        · exact Or.inr (Or.inl h3)
        · exact Or.inr (Or.inr (Or.inl h3))
  · rcases List.mem_cons.mp h with h2 | h2
    · exact Or.inr (Or.inr (Or.inr h2))
    · rcases floatRepr_chars t.2.2 c h2 with h3 | h3 | h3
      · exact Or.inl h3
      · exact Or.inr (Or.inl h3)
      · exact Or.inr (Or.inr (Or.inl h3))

theorem slash_not_mem_entryStr (t : PyNum × PyFloat × PyFloat) :
    '/' ∉ entryStr t := by
  intro hc
  rcases mem_entryStr t hc with h | h | h | h
  · cases h
  · cases h
  · cases h
  · cases h

theorem entryStr_ne_nil (t : PyNum × PyFloat × PyFloat) : entryStr t ≠ [] := by
  unfold entryStr
  simp

theorem entryStr_getLast?_ne_slash (t : PyNum × PyFloat × PyFloat) (d : Char)
    (h : (entryStr t).getLast? = some d) : d ≠ '/' := by
  unfold entryStr at h
  rw [List.getLast?_append_cons] at h
  rw [show (',' :: floatRepr t.2.2) = [','] ++ floatRepr t.2.2 from rfl,
    List.getLast?_append_of_ne_nil [','] (floatRepr_ne_nil t.2.2)] at h
  rcases floatRepr_chars t.2.2 d (mem_of_getLast?_eq h) with h' | h' | h'
  · intro he
    rw [he] at h'
    cases h'
  · intro he
    rw [he] at h'
    cases h'
  · intro he
    rw [he] at h'
    cases h'

theorem pySplit_comma_entryStr (t : PyNum × PyFloat × PyFloat) :
    pySplit ',' (entryStr t)
      = [pyNumStr t.1, floatRepr t.2.1, floatRepr t.2.2] := by
  have hA : ',' ∉ pyNumStr t.1 := by
    intro hc
    rcases pyNumStr_chars t.1 ',' hc with h | h | h <;> cases h
  have hB : ',' ∉ floatRepr t.2.1 :=
    not_mem_floatRepr (by decide) (by decide) (by decide) _
  have hC : ',' ∉ floatRepr t.2.2 :=
    not_mem_floatRepr (by decide) (by decide) (by decide) _
  unfold entryStr
  rw [List.append_assoc, pySplit_append ',' _ _ hA, List.cons_append,
    pySplit_cons_sep, pySplit_append ',' _ _ hB, pySplit_cons_sep,
    pySplit_of_not_mem ',' _ hC]
  simp

theorem parseHarmonic_entryStr (t : PyNum × PyFloat × PyFloat) :
    ∃ g : PyFloat × PyFloat × PyFloat,
      parseHarmonic (entryStr t) = .ok g ∧
      g.1.veq (pyNumFloat t.1) = true ∧ g.2.1.veq t.2.1 = true ∧
      g.2.2.veq t.2.2 = true := by
  obtain ⟨g1, hg1, hv1⟩ : ∃ g1, pyFloatOfStr (pyNumStr t.1) = some g1 ∧
      g1.veq (pyNumFloat t.1) = true := by
    cases ht : t.1 with
    | int k => exact ⟨⟨k, 0⟩, pyFloatOfStr_intRepr k, veq_refl _⟩
    | float f =>
      obtain ⟨g, hg, hv⟩ := pyFloatOfStr_floatRepr f
      exact ⟨g, hg, hv⟩
  obtain ⟨g2, hg2, hv2⟩ := pyFloatOfStr_floatRepr t.2.1
  obtain ⟨g3, hg3, hv3⟩ := pyFloatOfStr_floatRepr t.2.2
  refine ⟨(g1, g2, g3), ?_, hv1, hv2, hv3⟩
  unfold parseHarmonic
  rw [pySplit_comma_entryStr]
  have h1 : toFloat (pyNumStr t.1) = .ok g1 := by unfold toFloat; rw [hg1]
  have h2 : toFloat (floatRepr t.2.1) = .ok g2 := by unfold toFloat; rw [hg2]
  have h3 : toFloat (floatRepr t.2.2) = .ok g3 := by unfold toFloat; rw [hg3]
  simp only [h1, h2, h3, except_ok_bind]

theorem mapM_parseHarmonic (ts : List (PyNum × PyFloat × PyFloat)) :
    ∃ gs, (ts.map entryStr).mapM parseHarmonic = .ok gs ∧
      List.Forall₂ (fun (g : PyFloat × PyFloat × PyFloat) t =>
          g.1.veq (pyNumFloat t.1) = true ∧ g.2.1.veq t.2.1 = true ∧
          g.2.2.veq t.2.2 = true) gs ts := by
  induction ts with
  | nil => exact ⟨[], rfl, List.Forall₂.nil⟩
  | cons a t ih =>
    obtain ⟨gs, hgs, hfa⟩ := ih
    obtain ⟨g, hg, hv⟩ := parseHarmonic_entryStr a
    refine ⟨g :: gs, ?_, List.Forall₂.cons hv hfa⟩
    rw [List.map_cons, List.mapM_cons, hg, hgs]
    rfl

/-- C8 counterexample: a magnitude of `1e-9` is non-zero (not
value-equal to zero), so the claim requires the round trip to reproduce
its entry — but `spectrum_to_string` drops it (`np.isclose(1e-9, 0)` is
true under the default `atol=1e-8`) and, it being the only entry, the
encoder raises instead of producing a string. -/
theorem claim8_counterexample :
    spectrum_to_string [.int 1] [⟨1, 9⟩] [⟨0, 1⟩] = .error .emptyZip ∧
      (⟨1, 9⟩ : PyFloat).veq ⟨0, 0⟩ = false := by decide

/-- C8 (amended): for equal-length inputs in which at least one
magnitude exceeds the `np.isclose` zero tolerance (`|m| > 1e-8`),
decoding the encoded spectrum reproduces exactly the subsequence of
entries whose magnitude exceeds that tolerance, in original relative
order, with order and phase (and magnitude) values widened to floats and
preserved as Python numeric values. -/
theorem claim8_roundtrip (o : List PyNum) (m p : List PyFloat)
    (h1 : o.length = m.length) (h2 : o.length = p.length)
    (hsur : ∃ t ∈ o.zip (m.zip p), npIscloseZero t.2.1 = false) :
    ∃ s gs, spectrum_to_string o m p = .ok s ∧
      string_to_spectrum s
        = .ok (gs.map (fun g => g.1), gs.map (fun g => g.2.1),
               gs.map (fun g => g.2.2)) ∧
      List.Forall₂ (fun (g : PyFloat × PyFloat × PyFloat) t =>
          g.1.veq (pyNumFloat t.1) = true ∧ g.2.1.veq t.2.1 = true ∧
          g.2.2.veq t.2.2 = true)
        gs ((o.zip (m.zip p)).filter (fun t => !(npIscloseZero t.2.1))) := by
  obtain ⟨t0, ht0, hcl⟩ := hsur
  set ts := (o.zip (m.zip p)).filter (fun t => !(npIscloseZero t.2.1)) with hts
  have htmem : t0 ∈ ts := List.mem_filter.mpr ⟨ht0, by rw [hcl]; rfl⟩
  have htsne : ts ≠ [] := List.ne_nil_of_mem htmem
  have hmapne : ts.map entryStr ≠ [] := by simp [htsne]
  have henc : spectrum_to_string o m p
      = .ok (intercalateChar '/' (ts.map entryStr)) := by
    unfold spectrum_to_string
    rw [if_neg (by push_neg; exact ⟨h1, h2⟩)]
    rw [← hts]
    rw [if_neg (by rw [isEmpty_false_of_ne_nil htsne]; exact Bool.false_ne_true)]
    rw [show ts.map (fun t => entryStr t ++ ['/'])
        = (ts.map entryStr).map (fun e => e ++ ['/']) by
      rw [List.map_map]
      rfl]
    rw [flatten_dropLast_intercalate '/' (ts.map entryStr) hmapne]
  obtain ⟨gs, hgs, hfa⟩ := mapM_parseHarmonic ts
  refine ⟨_, gs, henc, ?_, hfa⟩
  unfold string_to_spectrum
  have hlast : endsWithChar '/' (intercalateChar '/' (ts.map entryStr))
      = false := by
    unfold endsWithChar
    obtain ⟨tl, htl⟩ : ∃ tl, ts.getLast? = some tl := by
      cases hgl : ts.getLast? with
      | none =>
        rw [List.getLast?_eq_none_iff] at hgl
        exact absurd hgl htsne
      | some x => exact ⟨x, rfl⟩
    have hmapl : (ts.map entryStr).getLast? = some (entryStr tl) := by
      rw [List.getLast?_map, htl]
      rfl
    rw [intercalateChar_getLast? '/' (ts.map entryStr) (entryStr tl) hmapl
      (entryStr_ne_nil tl)]
    cases hgl2 : (entryStr tl).getLast? with
    | none => rfl
    | some d =>
      have hne := entryStr_getLast?_ne_slash tl d hgl2
      simp [hne]
  have hno : ∀ e ∈ ts.map entryStr, '/' ∉ e := by
    intro e he
    obtain ⟨t, _, rfl⟩ := List.mem_map.mp he
    exact slash_not_mem_entryStr t
  rw [hlast]
  rw [if_neg (by exact Bool.false_ne_true)]
  show (do
      let triples ← (pySplit '/' (intercalateChar '/' (ts.map entryStr))).mapM
        parseHarmonic
      Except.ok (triples.map (fun t => t.1), triples.map (fun t => t.2.1),
        triples.map (fun t => t.2.2)))
    = Except.ok (gs.map (fun g => g.1), gs.map (fun g => g.2.1),
        gs.map (fun g => g.2.2))
  rw [pySplit_intercalateChar '/' (ts.map entryStr) hmapne hno, hgs]
  rfl

theorem claim8_witness :
    ∃ s gs, spectrum_to_string [.int 1] [⟨2300, 1⟩] [⟨0, 1⟩] = .ok s ∧
      string_to_spectrum s
        = .ok (gs.map (fun g => g.1), gs.map (fun g => g.2.1),
               gs.map (fun g => g.2.2)) ∧
      List.Forall₂ (fun (g : PyFloat × PyFloat × PyFloat) t =>
          g.1.veq (pyNumFloat t.1) = true ∧ g.2.1.veq t.2.1 = true ∧
          g.2.2.veq t.2.2 = true)
        gs ((([PyNum.int 1]).zip (([⟨2300, 1⟩] : List PyFloat).zip
              ([⟨0, 1⟩] : List PyFloat))).filter
            (fun t => !(npIscloseZero t.2.1))) :=
  claim8_roundtrip [.int 1] [⟨2300, 1⟩] [⟨0, 1⟩] (by decide) (by decide)
    ⟨(.int 1, ⟨2300, 1⟩, ⟨0, 1⟩), by decide, by decide⟩

theorem contains_false_iff {s : Str} {c : Char} :
    s.contains c = false ↔ c ∉ s := by
  constructor
  · intro h hc
    have h2 : s.contains c = true := List.elem_iff.mpr hc
    rw [h2] at h
    cases h
  · intro h
    cases hc : s.contains c with
    | false => rfl
    | true => exact absurd (List.elem_iff.mp hc) h

theorem lineSafe_props {s : Str} (h : lineSafe s = true) :
    ('\n') ∉ s ∧ ('=') ∉ s ∧ (';') ∉ s ∧ pyStrip s = s := by
  unfold lineSafe at h
  simp only [Bool.and_eq_true, Bool.not_eq_true'] at h
  obtain ⟨⟨⟨h1, h2⟩, h3⟩, h4⟩ := h
  exact ⟨contains_false_iff.mp h1, contains_false_iff.mp h2,
    contains_false_iff.mp h3, beq_iff_eq.mp h4⟩

theorem lineSafe_props_of_digits {s : Str} (h : pyIsDigit s = true) :
    ('\n') ∉ s ∧ ('=') ∉ s ∧ (';') ∉ s ∧ pyStrip s = s := by
  unfold pyIsDigit at h
  rw [Bool.and_eq_true] at h
  have hall := List.all_eq_true.mp h.2
  refine ⟨?_, ?_, ?_, ?_⟩
  · intro hc
    cases hall _ hc
  · intro hc
    cases hall _ hc
  · intro hc
    cases hall _ hc
  · exact pyStrip_eq_self_of_no_ws s
      (fun c hc => isPyWS_eq_false_of_isDigit (hall c hc))

theorem lineSafe_props_of_floatRepr (f : PyFloat) :
    ('\n') ∉ floatRepr f ∧ ('=') ∉ floatRepr f ∧ (';') ∉ floatRepr f ∧
      pyStrip (floatRepr f) = floatRepr f :=
  ⟨not_mem_floatRepr (by decide) (by decide) (by decide) f,
   not_mem_floatRepr (by decide) (by decide) (by decide) f,
   not_mem_floatRepr (by decide) (by decide) (by decide) f,
   pyStrip_eq_self_of_no_ws _ (floatRepr_no_ws f)⟩

theorem lineSafe_props_of_intRepr (n : Int) :
    ('\n') ∉ intRepr n ∧ ('=') ∉ intRepr n ∧ (';') ∉ intRepr n ∧
      pyStrip (intRepr n) = intRepr n :=
  ⟨not_mem_intRepr (by decide) (by decide) n,
   not_mem_intRepr (by decide) (by decide) n,
   not_mem_intRepr (by decide) (by decide) n,
   pyStrip_eq_self_of_no_ws _ (intRepr_no_ws n)⟩

theorem mem_intercalateChar {c x : Char} : ∀ {parts : List Str},
    x ∈ intercalateChar c parts → x = c ∨ ∃ q ∈ parts, x ∈ q := by
  intro parts
  induction parts with
  | nil => intro h; cases h
  | cons p rest ih =>
    intro h
    cases rest with
    | nil => exact Or.inr ⟨p, List.mem_cons_self p [], h⟩
    | cons q rest' =>
      rcases List.mem_append.mp h with h1 | h1
      · exact Or.inr ⟨p, List.mem_cons_self p _, h1⟩
      · rcases List.mem_cons.mp h1 with h2 | h2
        · exact Or.inl h2
        · rcases ih h2 with h3 | ⟨r, hr, hxr⟩
          · exact Or.inl h3
          · exact Or.inr ⟨r, List.mem_cons_of_mem p hr, hxr⟩

theorem lineSafe_props_of_joined (cd : List PyFloat) :
    ('\n') ∉ intercalateChar ',' (cd.map floatRepr) ∧
    ('=') ∉ intercalateChar ',' (cd.map floatRepr) ∧
    (';') ∉ intercalateChar ',' (cd.map floatRepr) ∧
    pyStrip (intercalateChar ',' (cd.map floatRepr))
      = intercalateChar ',' (cd.map floatRepr) := by
  have hmem : ∀ x ∈ intercalateChar ',' (cd.map floatRepr),
      x = ',' ∨ x.isDigit = true ∨ x = '.' ∨ x = '-' := by
    intro x hx
    rcases mem_intercalateChar hx with h | ⟨q, hq, hxq⟩
    · exact Or.inl h
    · obtain ⟨f, _, rfl⟩ := List.mem_map.mp hq
      exact Or.inr (floatRepr_chars f x hxq)
  refine ⟨?_, ?_, ?_, ?_⟩
  · intro hc
    rcases hmem _ hc with h | h | h | h <;> exact absurd h (by decide)
  · intro hc
    rcases hmem _ hc with h | h | h | h <;> exact absurd h (by decide)
  · intro hc
    rcases hmem _ hc with h | h | h | h <;> exact absurd h (by decide)
  · refine pyStrip_eq_self_of_no_ws _ ?_
    intro x hx
    rcases hmem x hx with h | h | h | h
    · subst h; decide
    · exact isPyWS_eq_false_of_isDigit h
    · subst h; decide
    · subst h; decide

theorem kvLine_eq (key v : Str) : kvLine key v = kvBody key v ++ ['\n'] := by
  unfold kvLine kvBody
  simp

theorem headerNL : ("TUDHDB_TXT_v01\n").toList
    = ("TUDHDB_TXT_v01").toList ++ ['\n'] := by decide

theorem sectionUDNL : ("[User Detail]\n").toList
    = ("[User Detail]").toList ++ ['\n'] := by decide

theorem sectionEUTNL : ("[EUT]\n").toList
    = ("[EUT]").toList ++ ['\n'] := by decide

theorem sectionHarmNL : ("[Harmonics]\n").toList
    = ("[Harmonics]").toList ++ ['\n'] := by decide

theorem sectionWaveNL : ("[Waveforms]\n").toList
    = ("[Waveforms]").toList ++ ['\n'] := by decide

theorem baseWrites_eq (p : PandaFile) :
    baseWrites p = (metaBodies p).map (fun b => b ++ ['\n']) := by
  unfold baseWrites metaBodies
  simp only [List.map_cons, List.map_nil, kvLine_eq, headerNL, sectionUDNL,
    sectionEUTNL, sectionHarmNL]

theorem waveWrites_eq (sr : Int) (cd vd : List PyFloat) :
    waveWrites sr cd vd = (waveBodies sr cd vd).map (fun b => b ++ ['\n']) := by
  unfold waveWrites waveBodies
  simp only [List.map_cons, List.map_nil, kvLine_eq, sectionWaveNL]

theorem pySplit_nl_writes : ∀ (bodies : List Str),
    (∀ b ∈ bodies, ('\n') ∉ b) →
    pySplit '\n' ((bodies.map (fun b => b ++ ['\n'])).flatten)
      = bodies ++ [[]] := by
  intro bodies
  induction bodies with
  | nil => intro _; rfl
  | cons b rest ih =>
    intro h
    have hb : ('\n') ∉ b := h b (List.mem_cons_self b rest)
    show pySplit '\n' ((b ++ ['\n'])
      ++ (rest.map (fun b => b ++ ['\n'])).flatten) = _
    rw [List.append_assoc, List.singleton_append,
      pySplit_append '\n' b _ hb, pySplit_cons_sep,
      ih (fun x hx => h x (List.mem_cons_of_mem b hx))]
    simp

theorem foldlM_step {st st' : Sections × Option Str} {l : Str}
    {rest : List Str} (h : processLine st l = .ok st') :
    List.foldlM processLine st (l :: rest)
      = List.foldlM processLine st' rest := by
  rw [List.foldlM_cons, h]
  rfl

theorem processLine_section (d : Sections) (sec : Option Str) (l name : Str)
    (h1 : endsWithChar ']' (pyStrip l) = true)
    (h2 : pyStripBrackets (pyStrip l) = name) :
    processLine (d, sec) l = .ok (dictSet d name [], some name) := by
  unfold processLine
  rw [h1, if_pos rfl, h2]

theorem processLine_kv (d : Sections) (sec : Str) (dd : Dict) (key v : Str)
    (hd : dictGet? d sec = some dd)
    (hkeyne : key ≠ [])
    (hkeyEq : ('=') ∉ key)
    (hkeyAll : key.all (fun c => !(isPyWS c)) = true)
    (hkeyStrip : pyStrip (key ++ [' ']) = key)
    (hv1 : ('\n') ∉ v) (hv2 : ('=') ∉ v) (hv3 : (';') ∉ v)
    (hv4 : pyStrip v = v) :
    processLine (d, some sec) (kvBody key v)
      = .ok (dictSet d sec (dictSet dd key v), some sec) := by
  have hkeyNW : ∀ c ∈ key, isPyWS c = false := by
    intro c hc
    have := List.all_eq_true.mp hkeyAll c hc
    simpa using this
  obtain ⟨k0, kt, hk0⟩ : ∃ k0 kt, key = k0 :: kt := by
    cases hk : key with
    | nil => exact absurd hk hkeyne
    | cons a t => exact ⟨a, t, rfl⟩
  have hgl : (kvBody key v).getLast? = some ';' := by
    unfold kvBody
    rw [show key ++ " = ".toList ++ v ++ [';']
        = (key ++ " = ".toList ++ v) ++ [';'] by simp]
    exact List.getLast?_concat _
  have hstrip : pyStrip (kvBody key v) = kvBody key v := by
    apply pyStrip_eq_self
    · intro c hc
      unfold kvBody at hc
      rw [show key ++ " = ".toList ++ v ++ [';']
          = key ++ (" = ".toList ++ v ++ [';']) by simp] at hc
      rw [List.head?_append_of_ne_nil _ hkeyne] at hc
      exact hkeyNW c (mem_of_head?_eq hc)
    · intro c hc
      rw [hgl] at hc
      injection hc with hc
      subst hc
      decide
  have hend : endsWithChar ']' (pyStrip (kvBody key v)) = false := by
    rw [hstrip]
    unfold endsWithChar
    rw [hgl]
    rfl
  have hcont : (kvBody key v).contains '=' = true := by
    refine List.elem_iff.mpr ?_
    unfold kvBody
    refine List.mem_append.mpr (Or.inl ?_)
    refine List.mem_append.mpr (Or.inl ?_)
    exact List.mem_append.mpr (Or.inr (by decide))
  have hshape : kvBody key v
      = (key ++ [' ']) ++ '=' :: (' ' :: (v ++ [';'])) := by
    unfold kvBody
    simp
  have hsplit : pySplit '=' (kvBody key v)
      = [key ++ [' '], ' ' :: (v ++ [';'])] := by
    rw [hshape]
    have hA : ('=') ∉ key ++ [' '] := by
      intro hc
      rcases List.mem_append.mp hc with h | h
      · exact hkeyEq h
      · simp only [List.mem_singleton] at h
        cases h
    have hB : ('=') ∉ ' ' :: (v ++ [';']) := by
      intro hc
      rcases List.mem_cons.mp hc with h | h
      · cases h
      · rcases List.mem_append.mp h with h2 | h2
        · exact hv2 h2
        · simp only [List.mem_singleton] at h2
          cases h2
    rw [pySplit_append '=' _ _ hA, pySplit_cons_sep,
      pySplit_of_not_mem '=' _ hB]
    simp
  have hval : pyStrip ((pySplit ';' (' ' :: (v ++ [';']))).headD []) = v := by
    rw [pySplit_headD]
    have hstop := takeWhile_append_stop (p := fun c => c != ';')
      (' ' :: v) ';' []
      (by
        intro c hc
        rcases List.mem_cons.mp hc with h | h
        · subst h; decide
        · simp only [bne_iff_ne, ne_eq]
          intro he
          exact hv3 (he ▸ h))
      (by decide)
    rw [show ' ' :: (v ++ [';']) = (' ' :: v) ++ ';' :: [] by simp] at *
    rw [hstop.1, pyStrip_cons_ws ' ' v (by decide), hv4]
  unfold processLine
  rw [hend]
  rw [if_neg (by exact Bool.false_ne_true), hcont, if_pos rfl, hsplit]
  simp only [hd, hkeyStrip, hval]

theorem pyIntOfStr_digits (s : Str) (h : pyIsDigit s = true) :
    pyIntOfStr s = some ((digitsVal s : Int)) := by
  unfold pyIsDigit at h
  rw [Bool.and_eq_true] at h
  obtain ⟨hne, hall⟩ := h
  have hne' : s ≠ [] := by
    intro he
    rw [he] at hne
    cases hne
  have hdig := List.all_eq_true.mp hall
  obtain ⟨c, t, hct⟩ : ∃ c t, s = c :: t := by
    cases hs : s with
    | nil => exact absurd hs hne'
    | cons a t => exact ⟨a, t, rfl⟩
  have hstrip : pyStrip s = s :=
    pyStrip_eq_self_of_no_ws s
      (fun c hc => isPyWS_eq_false_of_isDigit (hdig c hc))
  have hsign : pySign s = (1, s) := by
    rw [hct]
    exact pySign_digit c t (hdig c (hct ▸ List.mem_cons_self c t))
  unfold pyIntOfStr
  rw [hstrip, hsign]
  simp only [isEmpty_false_of_ne_nil hne', hall, Bool.not_false,
    Bool.and_self, if_true, one_mul]

theorem intRepr_ofNat (k : Nat) : intRepr ((k : Nat) : Int) = natToDigits k := by
  unfold intRepr
  rw [if_neg (by omega)]
  congr 1

theorem optFloatsEq_some {a b : List PyFloat}
    (h : List.Forall₂ (fun x y => x.veq y = true) a b) :
    optFloatsEq (some a) (some b) = true := by
  unfold optFloatsEq
  rw [Bool.and_eq_true]
  constructor
  · exact beq_iff_eq.mpr (List.Forall₂.length_eq h)
  · rw [List.all_eq_true]
    intro t ht
    induction h with
    | nil => cases ht
    | cons hxy hrest ih =>
      rcases List.mem_cons.mp ht with h2 | h2
      · subst h2
        exact hxy
      · exact ih h2

/-- Scanning the unconditional document lines builds `metaData` and
leaves the `Harmonics` section open. -/
theorem parse_meta (p : PandaFile)
    (h1 : LineOK p.lab_id) (h2 : LineOK p.user_id) (h3 : LineOK p.category)
    (h4 : LineOK p.sub_category) (h5 : LineOK p.unique_id)
    (h6 : LineOK p.manufacturer) (h7 : LineOK p.product_code)
    (h8 : LineOK p.sell_country) (h9 : LineOK p.sell_year)
    (h10 : LineOK (pyValStr p.rated_power))
    (h11 : LineOK (pyValStr p.nominal_voltage))
    (h12 : LineOK p.description) (h13 : LineOK p.current_harmonics)
    (h14 : LineOK p.voltage_harmonics) (rest : List Str) :
    List.foldlM processLine ([], none) (metaBodies p ++ rest)
      = List.foldlM processLine (metaData p, some kHarmonics) rest := by
  have hnf : LineOK (floatRepr p.nominal_frequency) :=
    lineSafe_props_of_floatRepr p.nominal_frequency
  have hss : LineOK (intRepr p.supply_source) :=
    lineSafe_props_of_intRepr p.supply_source
  simp only [metaBodies, List.cons_append, List.nil_append]
  rw [foldlM_step (processLine_ignore ([], none) (("TUDHDB_TXT_v01").toList)
    (by decide) (by decide))]
  rw [foldlM_step (processLine_section [] none (("[User Detail]").toList)
    kUserDetail (by decide) (by decide))]
  show List.foldlM processLine ([(kUserDetail, ([] : Dict))], some kUserDetail) _ = _
  rw [foldlM_step (processLine_kv [(kUserDetail, ([] : Dict))] kUserDetail
    ([] : Dict)
    kLabID (p.lab_id) rfl (by decide) (by decide) (by decide)
    (by decide) h1.1 h1.2.1 h1.2.2.1 h1.2.2.2)]
  show List.foldlM processLine ([(kUserDetail, [(kLabID, p.lab_id)])], some kUserDetail) _ = _
  rw [foldlM_step (processLine_kv [(kUserDetail, [(kLabID, p.lab_id)])] kUserDetail
    [(kLabID, p.lab_id)]
    kUserID (p.user_id) rfl (by decide) (by decide) (by decide)
    (by decide) h2.1 h2.2.1 h2.2.2.1 h2.2.2.2)]
  show List.foldlM processLine ([(kUserDetail, [(kLabID, p.lab_id), (kUserID, p.user_id)])], some kUserDetail) _ = _
  rw [foldlM_step (processLine_section [(kUserDetail, [(kLabID, p.lab_id), (kUserID, p.user_id)])]
    (some kUserDetail) (("[EUT]").toList) kEUT (by decide) (by decide))]
  show List.foldlM processLine ([(kUserDetail, [(kLabID, p.lab_id), (kUserID, p.user_id)]), (kEUT, ([] : Dict))], some kEUT) _ = _
  rw [foldlM_step (processLine_kv [(kUserDetail, [(kLabID, p.lab_id), (kUserID, p.user_id)]), (kEUT, ([] : Dict))] kEUT
    ([] : Dict)
    kCategory (p.category) rfl (by decide) (by decide) (by decide)
    (by decide) h3.1 h3.2.1 h3.2.2.1 h3.2.2.2)]
  show List.foldlM processLine ([(kUserDetail, [(kLabID, p.lab_id), (kUserID, p.user_id)]), (kEUT, [(kCategory, p.category)])], some kEUT) _ = _
  rw [foldlM_step (processLine_kv [(kUserDetail, [(kLabID, p.lab_id), (kUserID, p.user_id)]), (kEUT, [(kCategory, p.category)])] kEUT
    [(kCategory, p.category)]
    kSubCategory (p.sub_category) rfl (by decide) (by decide) (by decide)
    (by decide) h4.1 h4.2.1 h4.2.2.1 h4.2.2.2)]
  show List.foldlM processLine ([(kUserDetail, [(kLabID, p.lab_id), (kUserID, p.user_id)]), (kEUT, [(kCategory, p.category), (kSubCategory, p.sub_category)])], some kEUT) _ = _
  rw [foldlM_step (processLine_kv [(kUserDetail, [(kLabID, p.lab_id), (kUserID, p.user_id)]), (kEUT, [(kCategory, p.category), (kSubCategory, p.sub_category)])] kEUT
    [(kCategory, p.category), (kSubCategory, p.sub_category)]
    kUniqueID (p.unique_id) rfl (by decide) (by decide) (by decide)
    (by decide) h5.1 h5.2.1 h5.2.2.1 h5.2.2.2)]
  show List.foldlM processLine ([(kUserDetail, [(kLabID, p.lab_id), (kUserID, p.user_id)]), (kEUT, [(kCategory, p.category), (kSubCategory, p.sub_category), (kUniqueID, p.unique_id)])], some kEUT) _ = _
  rw [foldlM_step (processLine_kv [(kUserDetail, [(kLabID, p.lab_id), (kUserID, p.user_id)]), (kEUT, [(kCategory, p.category), (kSubCategory, p.sub_category), (kUniqueID, p.unique_id)])] kEUT
    [(kCategory, p.category), (kSubCategory, p.sub_category), (kUniqueID, p.unique_id)]
    kManufacturer (p.manufacturer) rfl (by decide) (by decide) (by decide)
    (by decide) h6.1 h6.2.1 h6.2.2.1 h6.2.2.2)]
  show List.foldlM processLine ([(kUserDetail, [(kLabID, p.lab_id), (kUserID, p.user_id)]), (kEUT, [(kCategory, p.category), (kSubCategory, p.sub_category), (kUniqueID, p.unique_id), (kManufacturer, p.manufacturer)])], some kEUT) _ = _
  rw [foldlM_step (processLine_kv [(kUserDetail, [(kLabID, p.lab_id), (kUserID, p.user_id)]), (kEUT, [(kCategory, p.category), (kSubCategory, p.sub_category), (kUniqueID, p.unique_id), (kManufacturer, p.manufacturer)])] kEUT
    [(kCategory, p.category), (kSubCategory, p.sub_category), (kUniqueID, p.unique_id), (kManufacturer, p.manufacturer)]
    kProductCode (p.product_code) rfl (by decide) (by decide) (by decide)
    (by decide) h7.1 h7.2.1 h7.2.2.1 h7.2.2.2)]
  show List.foldlM processLine ([(kUserDetail, [(kLabID, p.lab_id), (kUserID, p.user_id)]), (kEUT, [(kCategory, p.category), (kSubCategory, p.sub_category), (kUniqueID, p.unique_id), (kManufacturer, p.manufacturer), (kProductCode, p.product_code)])], some kEUT) _ = _
  rw [foldlM_step (processLine_kv [(kUserDetail, [(kLabID, p.lab_id), (kUserID, p.user_id)]), (kEUT, [(kCategory, p.category), (kSubCategory, p.sub_category), (kUniqueID, p.unique_id), (kManufacturer, p.manufacturer), (kProductCode, p.product_code)])] kEUT
    [(kCategory, p.category), (kSubCategory, p.sub_category), (kUniqueID, p.unique_id), (kManufacturer, p.manufacturer), (kProductCode, p.product_code)]
    kSellCountry (p.sell_country) rfl (by decide) (by decide) (by decide)
    (by decide) h8.1 h8.2.1 h8.2.2.1 h8.2.2.2)]
  show List.foldlM processLine ([(kUserDetail, [(kLabID, p.lab_id), (kUserID, p.user_id)]), (kEUT, [(kCategory, p.category), (kSubCategory, p.sub_category), (kUniqueID, p.unique_id), (kManufacturer, p.manufacturer), (kProductCode, p.product_code), (kSellCountry, p.sell_country)])], some kEUT) _ = _
  rw [foldlM_step (processLine_kv [(kUserDetail, [(kLabID, p.lab_id), (kUserID, p.user_id)]), (kEUT, [(kCategory, p.category), (kSubCategory, p.sub_category), (kUniqueID, p.unique_id), (kManufacturer, p.manufacturer), (kProductCode, p.product_code), (kSellCountry, p.sell_country)])] kEUT
    [(kCategory, p.category), (kSubCategory, p.sub_category), (kUniqueID, p.unique_id), (kManufacturer, p.manufacturer), (kProductCode, p.product_code), (kSellCountry, p.sell_country)]
    kSellYear (p.sell_year) rfl (by decide) (by decide) (by decide)
    (by decide) h9.1 h9.2.1 h9.2.2.1 h9.2.2.2)]
  show List.foldlM processLine ([(kUserDetail, [(kLabID, p.lab_id), (kUserID, p.user_id)]), (kEUT, [(kCategory, p.category), (kSubCategory, p.sub_category), (kUniqueID, p.unique_id), (kManufacturer, p.manufacturer), (kProductCode, p.product_code), (kSellCountry, p.sell_country), (kSellYear, p.sell_year)])], some kEUT) _ = _
  rw [foldlM_step (processLine_kv [(kUserDetail, [(kLabID, p.lab_id), (kUserID, p.user_id)]), (kEUT, [(kCategory, p.category), (kSubCategory, p.sub_category), (kUniqueID, p.unique_id), (kManufacturer, p.manufacturer), (kProductCode, p.product_code), (kSellCountry, p.sell_country), (kSellYear, p.sell_year)])] kEUT
    [(kCategory, p.category), (kSubCategory, p.sub_category), (kUniqueID, p.unique_id), (kManufacturer, p.manufacturer), (kProductCode, p.product_code), (kSellCountry, p.sell_country), (kSellYear, p.sell_year)]
    kRatedPower (pyValStr p.rated_power) rfl (by decide) (by decide) (by decide)
    (by decide) h10.1 h10.2.1 h10.2.2.1 h10.2.2.2)]
  show List.foldlM processLine ([(kUserDetail, [(kLabID, p.lab_id), (kUserID, p.user_id)]), (kEUT, [(kCategory, p.category), (kSubCategory, p.sub_category), (kUniqueID, p.unique_id), (kManufacturer, p.manufacturer), (kProductCode, p.product_code), (kSellCountry, p.sell_country), (kSellYear, p.sell_year), (kRatedPower, pyValStr p.rated_power)])], some kEUT) _ = _
  rw [foldlM_step (processLine_kv [(kUserDetail, [(kLabID, p.lab_id), (kUserID, p.user_id)]), (kEUT, [(kCategory, p.category), (kSubCategory, p.sub_category), (kUniqueID, p.unique_id), (kManufacturer, p.manufacturer), (kProductCode, p.product_code), (kSellCountry, p.sell_country), (kSellYear, p.sell_year), (kRatedPower, pyValStr p.rated_power)])] kEUT
    [(kCategory, p.category), (kSubCategory, p.sub_category), (kUniqueID, p.unique_id), (kManufacturer, p.manufacturer), (kProductCode, p.product_code), (kSellCountry, p.sell_country), (kSellYear, p.sell_year), (kRatedPower, pyValStr p.rated_power)]
    kNominalFrequency (floatRepr p.nominal_frequency) rfl (by decide) (by decide) (by decide)
    (by decide) hnf.1 hnf.2.1 hnf.2.2.1 hnf.2.2.2)]
  show List.foldlM processLine ([(kUserDetail, [(kLabID, p.lab_id), (kUserID, p.user_id)]), (kEUT, [(kCategory, p.category), (kSubCategory, p.sub_category), (kUniqueID, p.unique_id), (kManufacturer, p.manufacturer), (kProductCode, p.product_code), (kSellCountry, p.sell_country), (kSellYear, p.sell_year), (kRatedPower, pyValStr p.rated_power), (kNominalFrequency, floatRepr p.nominal_frequency)])], some kEUT) _ = _
  rw [foldlM_step (processLine_kv [(kUserDetail, [(kLabID, p.lab_id), (kUserID, p.user_id)]), (kEUT, [(kCategory, p.category), (kSubCategory, p.sub_category), (kUniqueID, p.unique_id), (kManufacturer, p.manufacturer), (kProductCode, p.product_code), (kSellCountry, p.sell_country), (kSellYear, p.sell_year), (kRatedPower, pyValStr p.rated_power), (kNominalFrequency, floatRepr p.nominal_frequency)])] kEUT
    [(kCategory, p.category), (kSubCategory, p.sub_category), (kUniqueID, p.unique_id), (kManufacturer, p.manufacturer), (kProductCode, p.product_code), (kSellCountry, p.sell_country), (kSellYear, p.sell_year), (kRatedPower, pyValStr p.rated_power), (kNominalFrequency, floatRepr p.nominal_frequency)]
    kNominalVoltage (pyValStr p.nominal_voltage) rfl (by decide) (by decide) (by decide)
    (by decide) h11.1 h11.2.1 h11.2.2.1 h11.2.2.2)]
  show List.foldlM processLine ([(kUserDetail, [(kLabID, p.lab_id), (kUserID, p.user_id)]), (kEUT, [(kCategory, p.category), (kSubCategory, p.sub_category), (kUniqueID, p.unique_id), (kManufacturer, p.manufacturer), (kProductCode, p.product_code), (kSellCountry, p.sell_country), (kSellYear, p.sell_year), (kRatedPower, pyValStr p.rated_power), (kNominalFrequency, floatRepr p.nominal_frequency), (kNominalVoltage, pyValStr p.nominal_voltage)])], some kEUT) _ = _
  rw [foldlM_step (processLine_kv [(kUserDetail, [(kLabID, p.lab_id), (kUserID, p.user_id)]), (kEUT, [(kCategory, p.category), (kSubCategory, p.sub_category), (kUniqueID, p.unique_id), (kManufacturer, p.manufacturer), (kProductCode, p.product_code), (kSellCountry, p.sell_country), (kSellYear, p.sell_year), (kRatedPower, pyValStr p.rated_power), (kNominalFrequency, floatRepr p.nominal_frequency), (kNominalVoltage, pyValStr p.nominal_voltage)])] kEUT
    [(kCategory, p.category), (kSubCategory, p.sub_category), (kUniqueID, p.unique_id), (kManufacturer, p.manufacturer), (kProductCode, p.product_code), (kSellCountry, p.sell_country), (kSellYear, p.sell_year), (kRatedPower, pyValStr p.rated_power), (kNominalFrequency, floatRepr p.nominal_frequency), (kNominalVoltage, pyValStr p.nominal_voltage)]
    kSupplySource (intRepr p.supply_source) rfl (by decide) (by decide) (by decide)
    (by decide) hss.1 hss.2.1 hss.2.2.1 hss.2.2.2)]
  show List.foldlM processLine ([(kUserDetail, [(kLabID, p.lab_id), (kUserID, p.user_id)]), (kEUT, [(kCategory, p.category), (kSubCategory, p.sub_category), (kUniqueID, p.unique_id), (kManufacturer, p.manufacturer), (kProductCode, p.product_code), (kSellCountry, p.sell_country), (kSellYear, p.sell_year), (kRatedPower, pyValStr p.rated_power), (kNominalFrequency, floatRepr p.nominal_frequency), (kNominalVoltage, pyValStr p.nominal_voltage), (kSupplySource, intRepr p.supply_source)])], some kEUT) _ = _
  rw [foldlM_step (processLine_kv [(kUserDetail, [(kLabID, p.lab_id), (kUserID, p.user_id)]), (kEUT, [(kCategory, p.category), (kSubCategory, p.sub_category), (kUniqueID, p.unique_id), (kManufacturer, p.manufacturer), (kProductCode, p.product_code), (kSellCountry, p.sell_country), (kSellYear, p.sell_year), (kRatedPower, pyValStr p.rated_power), (kNominalFrequency, floatRepr p.nominal_frequency), (kNominalVoltage, pyValStr p.nominal_voltage), (kSupplySource, intRepr p.supply_source)])] kEUT
    [(kCategory, p.category), (kSubCategory, p.sub_category), (kUniqueID, p.unique_id), (kManufacturer, p.manufacturer), (kProductCode, p.product_code), (kSellCountry, p.sell_country), (kSellYear, p.sell_year), (kRatedPower, pyValStr p.rated_power), (kNominalFrequency, floatRepr p.nominal_frequency), (kNominalVoltage, pyValStr p.nominal_voltage), (kSupplySource, intRepr p.supply_source)]
    kDescription (p.description) rfl (by decide) (by decide) (by decide)
    (by decide) h12.1 h12.2.1 h12.2.2.1 h12.2.2.2)]
  show List.foldlM processLine ([(kUserDetail, [(kLabID, p.lab_id), (kUserID, p.user_id)]), (kEUT, [(kCategory, p.category), (kSubCategory, p.sub_category), (kUniqueID, p.unique_id), (kManufacturer, p.manufacturer), (kProductCode, p.product_code), (kSellCountry, p.sell_country), (kSellYear, p.sell_year), (kRatedPower, pyValStr p.rated_power), (kNominalFrequency, floatRepr p.nominal_frequency), (kNominalVoltage, pyValStr p.nominal_voltage), (kSupplySource, intRepr p.supply_source), (kDescription, p.description)])], some kEUT) _ = _
  rw [foldlM_step (processLine_section [(kUserDetail, [(kLabID, p.lab_id), (kUserID, p.user_id)]), (kEUT, [(kCategory, p.category), (kSubCategory, p.sub_category), (kUniqueID, p.unique_id), (kManufacturer, p.manufacturer), (kProductCode, p.product_code), (kSellCountry, p.sell_country), (kSellYear, p.sell_year), (kRatedPower, pyValStr p.rated_power), (kNominalFrequency, floatRepr p.nominal_frequency), (kNominalVoltage, pyValStr p.nominal_voltage), (kSupplySource, intRepr p.supply_source), (kDescription, p.description)])]
    (some kEUT) (("[Harmonics]").toList) kHarmonics (by decide) (by decide))]
  show List.foldlM processLine ([(kUserDetail, [(kLabID, p.lab_id), (kUserID, p.user_id)]), (kEUT, [(kCategory, p.category), (kSubCategory, p.sub_category), (kUniqueID, p.unique_id), (kManufacturer, p.manufacturer), (kProductCode, p.product_code), (kSellCountry, p.sell_country), (kSellYear, p.sell_year), (kRatedPower, pyValStr p.rated_power), (kNominalFrequency, floatRepr p.nominal_frequency), (kNominalVoltage, pyValStr p.nominal_voltage), (kSupplySource, intRepr p.supply_source), (kDescription, p.description)]), (kHarmonics, ([] : Dict))], some kHarmonics) _ = _
  rw [foldlM_step (processLine_kv [(kUserDetail, [(kLabID, p.lab_id), (kUserID, p.user_id)]), (kEUT, [(kCategory, p.category), (kSubCategory, p.sub_category), (kUniqueID, p.unique_id), (kManufacturer, p.manufacturer), (kProductCode, p.product_code), (kSellCountry, p.sell_country), (kSellYear, p.sell_year), (kRatedPower, pyValStr p.rated_power), (kNominalFrequency, floatRepr p.nominal_frequency), (kNominalVoltage, pyValStr p.nominal_voltage), (kSupplySource, intRepr p.supply_source), (kDescription, p.description)]), (kHarmonics, ([] : Dict))] kHarmonics
    ([] : Dict)
    kCurrentHarmonics (p.current_harmonics) rfl (by decide) (by decide) (by decide)
    (by decide) h13.1 h13.2.1 h13.2.2.1 h13.2.2.2)]
  show List.foldlM processLine ([(kUserDetail, [(kLabID, p.lab_id), (kUserID, p.user_id)]), (kEUT, [(kCategory, p.category), (kSubCategory, p.sub_category), (kUniqueID, p.unique_id), (kManufacturer, p.manufacturer), (kProductCode, p.product_code), (kSellCountry, p.sell_country), (kSellYear, p.sell_year), (kRatedPower, pyValStr p.rated_power), (kNominalFrequency, floatRepr p.nominal_frequency), (kNominalVoltage, pyValStr p.nominal_voltage), (kSupplySource, intRepr p.supply_source), (kDescription, p.description)]), (kHarmonics, [(kCurrentHarmonics, p.current_harmonics)])], some kHarmonics) _ = _
  rw [foldlM_step (processLine_kv [(kUserDetail, [(kLabID, p.lab_id), (kUserID, p.user_id)]), (kEUT, [(kCategory, p.category), (kSubCategory, p.sub_category), (kUniqueID, p.unique_id), (kManufacturer, p.manufacturer), (kProductCode, p.product_code), (kSellCountry, p.sell_country), (kSellYear, p.sell_year), (kRatedPower, pyValStr p.rated_power), (kNominalFrequency, floatRepr p.nominal_frequency), (kNominalVoltage, pyValStr p.nominal_voltage), (kSupplySource, intRepr p.supply_source), (kDescription, p.description)]), (kHarmonics, [(kCurrentHarmonics, p.current_harmonics)])] kHarmonics
    [(kCurrentHarmonics, p.current_harmonics)]
    kVoltageHarmonics (p.voltage_harmonics) rfl (by decide) (by decide) (by decide)
    (by decide) h14.1 h14.2.1 h14.2.2.1 h14.2.2.2)]
  rfl

theorem parse_wave (p : PandaFile) (sr : Int) (cd vd : List PyFloat)
    (rest : List Str) :
    List.foldlM processLine (metaData p, some kHarmonics)
        (waveBodies sr cd vd ++ rest)
      = List.foldlM processLine
          (metaData p ++ [(kWaveforms,
            [(kSamplingRate, intRepr sr),
             (kCurrentData, intercalateChar ',' (cd.map floatRepr)),
             (kVoltageData, intercalateChar ',' (vd.map floatRepr))])],
           some kWaveforms) rest := by
  have hcd := lineSafe_props_of_joined cd
  have hvd := lineSafe_props_of_joined vd
  have hsr := lineSafe_props_of_intRepr sr
  simp only [waveBodies, List.cons_append, List.nil_append]
  rw [foldlM_step (processLine_section (metaData p) (some kHarmonics)
    (("[Waveforms]").toList) kWaveforms (by decide) (by decide))]
  show List.foldlM processLine
    (metaData p ++ [(kWaveforms, ([] : Dict))], some kWaveforms) _ = _
  rw [foldlM_step (processLine_kv
    (metaData p ++ [(kWaveforms, ([] : Dict))]) kWaveforms ([] : Dict)
    kSamplingRate (intRepr sr) rfl (by decide) (by decide) (by decide)
    (by decide) hsr.1 hsr.2.1 hsr.2.2.1 hsr.2.2.2)]
  show List.foldlM processLine
    (metaData p ++ [(kWaveforms, [(kSamplingRate, intRepr sr)])],
      some kWaveforms) _ = _
  rw [foldlM_step (processLine_kv
    (metaData p ++ [(kWaveforms, [(kSamplingRate, intRepr sr)])]) kWaveforms
    [(kSamplingRate, intRepr sr)]
    kCurrentData (intercalateChar ',' (cd.map floatRepr)) rfl (by decide)
    (by decide) (by decide) (by decide) hcd.1 hcd.2.1 hcd.2.2.1 hcd.2.2.2)]
  show List.foldlM processLine
    (metaData p ++ [(kWaveforms,
      [(kSamplingRate, intRepr sr),
       (kCurrentData, intercalateChar ',' (cd.map floatRepr))])],
      some kWaveforms) _ = _
  rw [foldlM_step (processLine_kv
    (metaData p ++ [(kWaveforms,
      [(kSamplingRate, intRepr sr),
       (kCurrentData, intercalateChar ',' (cd.map floatRepr))])]) kWaveforms
    [(kSamplingRate, intRepr sr),
     (kCurrentData, intercalateChar ',' (cd.map floatRepr))]
    kVoltageData (intercalateChar ',' (vd.map floatRepr)) rfl (by decide)
    (by decide) (by decide) (by decide) hvd.1 hvd.2.1 hvd.2.2.1 hvd.2.2.2)]
  rfl

theorem kvBody_no_nl (key v : Str) (hk : ('\n') ∉ key) (hv : ('\n') ∉ v) :
    ('\n') ∉ kvBody key v := by
  unfold kvBody
  intro hc
  rcases List.mem_append.mp hc with h | h
  · rcases List.mem_append.mp h with h2 | h2
    · rcases List.mem_append.mp h2 with h3 | h3
      · exact hk h3
      · revert h3
        decide
    · exact hv h2
  · revert h
    decide

theorem validate_digits_ok {f : Field} {s : Str}
    (h : validate_property f s true = .ok s) : pyIsDigit s = true := by
  cases hd : pyIsDigit s with
  | true => rfl
  | false =>
    unfold validate_property at h
    rw [if_pos (by simp [hd])] at h
    cases h

/-- C1 (amended): on the serialisable domain the round trip holds up to
Python value equality of the numeric fields — see `Serializable` for the
domain and `pandaPyEq` for the equality. -/
theorem claim1_roundtrip_amended (p : PandaFile) (hs : Serializable p) :
    ∃ d q, to_txt p = .ok d ∧ from_txt d = .ok q ∧ pandaPyEq q p = true := by
  obtain ⟨v1, v2, v3, v4, v5, v6, v7, v8, v9, v10,
    c1, c2, s1, s2, s3, s4, s5, s6, s7, hrp, hrps, hnv, hw⟩ := hs
  have d1 := validate_digits_ok v1
  have d2 := validate_digits_ok v2
  have d3 := validate_digits_ok v3
  have d4 := validate_digits_ok v4
  have d9 := validate_digits_ok v9
  have L1 : LineOK p.lab_id := lineSafe_props_of_digits d1
  have L2 : LineOK p.user_id := lineSafe_props_of_digits d2
  have L3 : LineOK p.category := lineSafe_props_of_digits d3
  have L4 : LineOK p.sub_category := lineSafe_props_of_digits d4
  have L5 : LineOK p.unique_id := lineSafe_props s1
  have L6 : LineOK p.manufacturer := lineSafe_props s2
  have L7 : LineOK p.product_code := lineSafe_props s3
  have L8 : LineOK p.sell_country := lineSafe_props s4
  have L9 : LineOK p.sell_year := lineSafe_props_of_digits d9
  have L10 : LineOK (pyValStr p.rated_power) := lineSafe_props hrps
  have L11 : LineOK (pyValStr p.nominal_voltage) := by
    rw [hnv]
    exact lineSafe_props_of_intRepr _
  have L12 : LineOK p.description := lineSafe_props s5
  have L13 : LineOK p.current_harmonics := lineSafe_props s6
  have L14 : LineOK p.voltage_harmonics := lineSafe_props s7
  have hnl : ∀ b ∈ metaBodies p, ('\n') ∉ b := by
    intro b hb
    simp only [metaBodies, List.mem_cons, List.not_mem_nil, or_false] at hb
    rcases hb with rfl | rfl | rfl | rfl | rfl | rfl | rfl | rfl | rfl | rfl
      | rfl | rfl | rfl | rfl | rfl | rfl | rfl | rfl | rfl | rfl
    · decide
    · decide
    · exact kvBody_no_nl _ _ (by decide) L1.1
    · exact kvBody_no_nl _ _ (by decide) L2.1
    · decide
    · exact kvBody_no_nl _ _ (by decide) L3.1
    · exact kvBody_no_nl _ _ (by decide) L4.1
    · exact kvBody_no_nl _ _ (by decide) L5.1
    · exact kvBody_no_nl _ _ (by decide) L6.1
    · exact kvBody_no_nl _ _ (by decide) L7.1
    · exact kvBody_no_nl _ _ (by decide) L8.1
    · exact kvBody_no_nl _ _ (by decide) L9.1
    · exact kvBody_no_nl _ _ (by decide) L10.1
    · exact kvBody_no_nl _ _ (by decide)
        (lineSafe_props_of_floatRepr p.nominal_frequency).1
    · exact kvBody_no_nl _ _ (by decide) L11.1
    · exact kvBody_no_nl _ _ (by decide)
        (lineSafe_props_of_intRepr p.supply_source).1
    · exact kvBody_no_nl _ _ (by decide) L12.1
    · decide
    · exact kvBody_no_nl _ _ (by decide) L13.1
    · exact kvBody_no_nl _ _ (by decide) L14.1
  have hcat : toInt p.category = .ok ((digitsVal p.category : Int)) := by
    unfold toInt
    rw [pyIntOfStr_digits p.category d3]
  have hsub : toInt p.sub_category = .ok ((digitsVal p.sub_category : Int)) := by
    unfold toInt
    rw [pyIntOfStr_digits p.sub_category d4]
  obtain ⟨gnf, hgnf, hgnfv⟩ := pyFloatOfStr_floatRepr p.nominal_frequency
  have hnfp : toFloat (floatRepr p.nominal_frequency) = .ok gnf := by
    unfold toFloat
    rw [hgnf]
  have hnvi : toInt (pyValStr p.nominal_voltage)
      = .ok (pyValInt p.nominal_voltage) := by
    rw [hnv]
    show toInt (intRepr (pyValInt p.nominal_voltage)) = _
    unfold toInt
    rw [pyIntOfStr_intRepr]
    rfl
  have hsup : toInt (intRepr p.supply_source) = .ok p.supply_source := by
    unfold toInt
    rw [pyIntOfStr_intRepr]
  have c1' : natToDigits (digitsVal p.category) = p.category := by
    unfold canonDigitStr at c1
    exact beq_iff_eq.mp c1
  have c2' : natToDigits (digitsVal p.sub_category) = p.sub_category := by
    unfold canonDigitStr at c2
    exact beq_iff_eq.mp c2
  have hcatval : validate_property .category
      (intRepr ((digitsVal p.category : Int))) true = .ok p.category := by
    rw [intRepr_ofNat, c1']
    exact v3
  have hsubval : validate_property .sub_category
      (intRepr ((digitsVal p.sub_category : Int))) true = .ok p.sub_category := by
    rw [intRepr_ofNat, c2']
    exact v4
  cases hsr : p.sample_rate with
  | none =>
    cases hcd : p.current_data with
    | some x =>
      exfalso
      unfold waveSafe at hw
      rw [hsr, hcd] at hw
      cases hvv : p.voltage_data <;> rw [hvv] at hw <;> cases hw
    | none =>
      cases hvd : p.voltage_data with
      | some x =>
        exfalso
        unfold waveSafe at hw
        rw [hsr, hcd, hvd] at hw
        cases hw
      | none =>
        refine ⟨(baseWrites p).flatten,
          ⟨p.lab_id, p.user_id, p.category, p.sub_category, p.unique_id,
           p.manufacturer, p.product_code, p.sell_country, p.sell_year,
           .str (pyValStr p.rated_power), gnf, .int (pyValInt p.nominal_voltage),
           p.supply_source, p.description, p.current_harmonics,
           p.voltage_harmonics, none, none, none⟩, ?_, ?_, ?_⟩
        · unfold to_txt
          rw [hsr]
        · have hparse : parseLines (metaBodies p ++ [[]]) = .ok (metaData p) := by
            unfold parseLines
            rw [parse_meta p L1 L2 L3 L4 L5 L6 L7 L8 L9 L10 L11 L12 L13 L14 [[]]]
            rw [foldlM_step (processLine_ignore (metaData p, some kHarmonics)
              [] rfl rfl)]
            rfl
          unfold from_txt
          rw [baseWrites_eq, pySplit_nl_writes (metaBodies p) hnl, hparse,
            except_ok_bind]
          have g1 : getIn (metaData p) kUserDetail kLabID = .ok p.lab_id := rfl
          have g2 : getIn (metaData p) kUserDetail kUserID = .ok p.user_id := rfl
          have g3 : getIn (metaData p) kEUT kCategory = .ok p.category := rfl
          have g4 : getIn (metaData p) kEUT kSubCategory = .ok p.sub_category := rfl
          have g5 : getIn (metaData p) kEUT kUniqueID = .ok p.unique_id := rfl
          have g6 : getIn (metaData p) kEUT kManufacturer = .ok p.manufacturer := rfl
          have g7 : getIn (metaData p) kEUT kProductCode = .ok p.product_code := rfl
          have g8 : getIn (metaData p) kEUT kSellCountry = .ok p.sell_country := rfl
          have g9 : getIn (metaData p) kEUT kSellYear = .ok p.sell_year := rfl
          have g10 : getIn (metaData p) kEUT kRatedPower
              = .ok (pyValStr p.rated_power) := rfl
          have g11 : getIn (metaData p) kEUT kNominalFrequency
              = .ok (floatRepr p.nominal_frequency) := rfl
          have g12 : getIn (metaData p) kEUT kNominalVoltage
              = .ok (pyValStr p.nominal_voltage) := rfl
          have g13 : getIn (metaData p) kEUT kSupplySource
              = .ok (intRepr p.supply_source) := rfl
          have g14 : getIn (metaData p) kEUT kDescription = .ok p.description := rfl
          have g15 : getIn (metaData p) kHarmonics kCurrentHarmonics
              = .ok p.current_harmonics := rfl
          have g16 : getIn (metaData p) kHarmonics kVoltageHarmonics
              = .ok p.voltage_harmonics := rfl
          have hres : resolveWave (metaData p) = .ok (none, none, none) := rfl
          unfold buildRecord
          simp only [g1, g2, g3, g4, g5, g6, g7, g8, g9, g10, g11, g12, g13,
            g14, g15, g16, hcat, hsub, hnfp, hnvi, hsup, hres, except_ok_bind]
          unfold pandaInit
          simp only [v1, v2, hcatval, hsubval, v5, v6, v7, v8, v9, v10,
            except_ok_bind]
        · unfold pandaPyEq
          rw [hrp, hnv, hsr, hcd, hvd]
          simp [pyValEq, optFloatsEq, hgnfv, veq_refl]
          exact ⟨rfl, rfl⟩
  | some sr =>
    cases hcd : p.current_data with
    | none =>
      exfalso
      unfold waveSafe at hw
      rw [hsr, hcd] at hw
      cases hvv : p.voltage_data <;> rw [hvv] at hw <;> cases hw
    | some cd =>
      cases hvd : p.voltage_data with
      | none =>
        exfalso
        unfold waveSafe at hw
        rw [hsr, hcd, hvd] at hw
        cases hw
      | some vd =>
        have hwne : cd ≠ [] ∧ vd ≠ [] := by
          unfold waveSafe at hw
          rw [hsr, hcd, hvd] at hw
          rw [Bool.and_eq_true] at hw
          constructor
          · intro h
            rw [h] at hw
            cases hw.1
          · intro h
            rw [h] at hw
            cases hw.2
        have hnlw : ∀ b ∈ waveBodies sr cd vd, ('\n') ∉ b := by
          intro b hb
          simp only [waveBodies, List.mem_cons, List.not_mem_nil,
            or_false] at hb
          rcases hb with rfl | rfl | rfl | rfl
          · decide
          · exact kvBody_no_nl _ _ (by decide)
              (lineSafe_props_of_intRepr sr).1
          · exact kvBody_no_nl _ _ (by decide)
              (lineSafe_props_of_joined cd).1
          · exact kvBody_no_nl _ _ (by decide)
              (lineSafe_props_of_joined vd).1
        have hnlA : ∀ b ∈ metaBodies p ++ waveBodies sr cd vd,
            ('\n') ∉ b := by
          intro b hb
          rcases List.mem_append.mp hb with h | h
          · exact hnl b h
          · exact hnlw b h
        have hsplitc : pySplit ',' (intercalateChar ',' (cd.map floatRepr))
            = cd.map floatRepr := by
          refine pySplit_intercalateChar ',' _ ?_ ?_
          · simp [hwne.1]
          · intro q hq
            obtain ⟨f, _, rfl⟩ := List.mem_map.mp hq
            exact not_mem_floatRepr (by decide) (by decide) (by decide) f
        have hsplitv : pySplit ',' (intercalateChar ',' (vd.map floatRepr))
            = vd.map floatRepr := by
          refine pySplit_intercalateChar ',' _ ?_ ?_
          · simp [hwne.2]
          · intro q hq
            obtain ⟨f, _, rfl⟩ := List.mem_map.mp hq
            exact not_mem_floatRepr (by decide) (by decide) (by decide) f
        obtain ⟨cds', hcds', hcdF⟩ := mapM_toFloat_floatRepr cd
        obtain ⟨vds', hvds', hvdF⟩ := mapM_toFloat_floatRepr vd
        have hsri : toInt (intRepr sr) = .ok sr := by
          unfold toInt
          rw [pyIntOfStr_intRepr]
        refine ⟨((baseWrites p ++ waveWrites sr cd vd).flatten),
          ⟨p.lab_id, p.user_id, p.category, p.sub_category, p.unique_id,
           p.manufacturer, p.product_code, p.sell_country, p.sell_year,
           .str (pyValStr p.rated_power), gnf, .int (pyValInt p.nominal_voltage),
           p.supply_source, p.description, p.current_harmonics,
           p.voltage_harmonics, some sr, some cds', some vds'⟩, ?_, ?_, ?_⟩
        · unfold to_txt
          rw [hsr, hcd, hvd]
        · have hparse : parseLines ((metaBodies p ++ waveBodies sr cd vd)
              ++ [[]]) = .ok (metaData p ++ [(kWaveforms,
                [(kSamplingRate, intRepr sr),
                 (kCurrentData, intercalateChar ',' (cd.map floatRepr)),
                 (kVoltageData, intercalateChar ',' (vd.map floatRepr))])]) := by
            unfold parseLines
            rw [List.append_assoc]
            rw [parse_meta p L1 L2 L3 L4 L5 L6 L7 L8 L9 L10 L11 L12 L13 L14
              (waveBodies sr cd vd ++ [[]])]
            rw [parse_wave p sr cd vd [[]]]
            rw [foldlM_step (processLine_ignore
              (metaData p ++ [(kWaveforms,
                [(kSamplingRate, intRepr sr),
                 (kCurrentData, intercalateChar ',' (cd.map floatRepr)),
                 (kVoltageData, intercalateChar ',' (vd.map floatRepr))])],
               some kWaveforms) [] rfl rfl)]
            rfl
          unfold from_txt
          rw [baseWrites_eq, waveWrites_eq, ← List.map_append,
            pySplit_nl_writes _ hnlA, hparse, except_ok_bind]
          have g1 : getIn (metaData p ++ [(kWaveforms,
              [(kSamplingRate, intRepr sr),
               (kCurrentData, intercalateChar ',' (cd.map floatRepr)),
               (kVoltageData, intercalateChar ',' (vd.map floatRepr))])])
              kUserDetail kLabID = .ok p.lab_id := rfl
          have g2 : getIn (metaData p ++ [(kWaveforms,
              [(kSamplingRate, intRepr sr),
               (kCurrentData, intercalateChar ',' (cd.map floatRepr)),
               (kVoltageData, intercalateChar ',' (vd.map floatRepr))])])
              kUserDetail kUserID = .ok p.user_id := rfl
          have g3 : getIn (metaData p ++ [(kWaveforms,
              [(kSamplingRate, intRepr sr),
               (kCurrentData, intercalateChar ',' (cd.map floatRepr)),
               (kVoltageData, intercalateChar ',' (vd.map floatRepr))])])
              kEUT kCategory = .ok p.category := rfl
          have g4 : getIn (metaData p ++ [(kWaveforms,
              [(kSamplingRate, intRepr sr),
               (kCurrentData, intercalateChar ',' (cd.map floatRepr)),
               (kVoltageData, intercalateChar ',' (vd.map floatRepr))])])
              kEUT kSubCategory = .ok p.sub_category := rfl
          have g5 : getIn (metaData p ++ [(kWaveforms,
              [(kSamplingRate, intRepr sr),
               (kCurrentData, intercalateChar ',' (cd.map floatRepr)),
               (kVoltageData, intercalateChar ',' (vd.map floatRepr))])])
              kEUT kUniqueID = .ok p.unique_id := rfl
          have g6 : getIn (metaData p ++ [(kWaveforms,
              [(kSamplingRate, intRepr sr),
               (kCurrentData, intercalateChar ',' (cd.map floatRepr)),
               (kVoltageData, intercalateChar ',' (vd.map floatRepr))])])
              kEUT kManufacturer = .ok p.manufacturer := rfl
          have g7 : getIn (metaData p ++ [(kWaveforms,
              [(kSamplingRate, intRepr sr),
               (kCurrentData, intercalateChar ',' (cd.map floatRepr)),
               (kVoltageData, intercalateChar ',' (vd.map floatRepr))])])
              kEUT kProductCode = .ok p.product_code := rfl
          have g8 : getIn (metaData p ++ [(kWaveforms,
              [(kSamplingRate, intRepr sr),
               (kCurrentData, intercalateChar ',' (cd.map floatRepr)),
               (kVoltageData, intercalateChar ',' (vd.map floatRepr))])])
              kEUT kSellCountry = .ok p.sell_country := rfl
          have g9 : getIn (metaData p ++ [(kWaveforms,
              [(kSamplingRate, intRepr sr),
               (kCurrentData, intercalateChar ',' (cd.map floatRepr)),
               (kVoltageData, intercalateChar ',' (vd.map floatRepr))])])
              kEUT kSellYear = .ok p.sell_year := rfl
          have g10 : getIn (metaData p ++ [(kWaveforms,
              [(kSamplingRate, intRepr sr),
               (kCurrentData, intercalateChar ',' (cd.map floatRepr)),
               (kVoltageData, intercalateChar ',' (vd.map floatRepr))])])
              kEUT kRatedPower = .ok (pyValStr p.rated_power) := rfl
          have g11 : getIn (metaData p ++ [(kWaveforms,
              [(kSamplingRate, intRepr sr),
               (kCurrentData, intercalateChar ',' (cd.map floatRepr)),
               (kVoltageData, intercalateChar ',' (vd.map floatRepr))])])
              kEUT kNominalFrequency = .ok (floatRepr p.nominal_frequency) := rfl
          have g12 : getIn (metaData p ++ [(kWaveforms,
              [(kSamplingRate, intRepr sr),
               (kCurrentData, intercalateChar ',' (cd.map floatRepr)),
               (kVoltageData, intercalateChar ',' (vd.map floatRepr))])])
              kEUT kNominalVoltage = .ok (pyValStr p.nominal_voltage) := rfl
          have g13 : getIn (metaData p ++ [(kWaveforms,
              [(kSamplingRate, intRepr sr),
               (kCurrentData, intercalateChar ',' (cd.map floatRepr)),
               (kVoltageData, intercalateChar ',' (vd.map floatRepr))])])
              kEUT kSupplySource = .ok (intRepr p.supply_source) := rfl
          have g14 : getIn (metaData p ++ [(kWaveforms,
              [(kSamplingRate, intRepr sr),
               (kCurrentData, intercalateChar ',' (cd.map floatRepr)),
               (kVoltageData, intercalateChar ',' (vd.map floatRepr))])])
              kEUT kDescription = .ok p.description := rfl
          have g15 : getIn (metaData p ++ [(kWaveforms,
              [(kSamplingRate, intRepr sr),
               (kCurrentData, intercalateChar ',' (cd.map floatRepr)),
               (kVoltageData, intercalateChar ',' (vd.map floatRepr))])])
              kHarmonics kCurrentHarmonics = .ok p.current_harmonics := rfl
          have g16 : getIn (metaData p ++ [(kWaveforms,
              [(kSamplingRate, intRepr sr),
               (kCurrentData, intercalateChar ',' (cd.map floatRepr)),
               (kVoltageData, intercalateChar ',' (vd.map floatRepr))])])
              kHarmonics kVoltageHarmonics = .ok p.voltage_harmonics := rfl
          have hres : resolveWave (metaData p ++ [(kWaveforms,
              [(kSamplingRate, intRepr sr),
               (kCurrentData, intercalateChar ',' (cd.map floatRepr)),
               (kVoltageData, intercalateChar ',' (vd.map floatRepr))])])
              = .ok (some sr, some cds', some vds') := by
            unfold resolveWave
            have h0 : dictGet? (metaData p ++ [(kWaveforms,
                [(kSamplingRate, intRepr sr),
                 (kCurrentData, intercalateChar ',' (cd.map floatRepr)),
                 (kVoltageData, intercalateChar ',' (vd.map floatRepr))])])
                kWaveforms = some
                [(kSamplingRate, intRepr sr),
                 (kCurrentData, intercalateChar ',' (cd.map floatRepr)),
                 (kVoltageData, intercalateChar ',' (vd.map floatRepr))] := rfl
            have h1 : dictGet?
                [(kSamplingRate, intRepr sr),
                 (kCurrentData, intercalateChar ',' (cd.map floatRepr)),
                 (kVoltageData, intercalateChar ',' (vd.map floatRepr))]
                kSamplingRate = some (intRepr sr) := rfl
            have h2 : dictGet?
                [(kSamplingRate, intRepr sr),
                 (kCurrentData, intercalateChar ',' (cd.map floatRepr)),
                 (kVoltageData, intercalateChar ',' (vd.map floatRepr))]
                kCurrentData
                = some (intercalateChar ',' (cd.map floatRepr)) := rfl
            have h3 : dictGet?
                [(kSamplingRate, intRepr sr),
                 (kCurrentData, intercalateChar ',' (cd.map floatRepr)),
                 (kVoltageData, intercalateChar ',' (vd.map floatRepr))]
                kVoltageData
                = some (intercalateChar ',' (vd.map floatRepr)) := rfl
            simp only [h0, h1, h2, h3, hsri, hsplitc, hcds', hsplitv, hvds',
              except_ok_bind]
          unfold buildRecord
          simp only [g1, g2, g3, g4, g5, g6, g7, g8, g9, g10, g11, g12, g13,
            g14, g15, g16, hcat, hsub, hnfp, hnvi, hsup, hres, except_ok_bind]
          unfold pandaInit
          simp only [v1, v2, hcatval, hsubval, v5, v6, v7, v8, v9, v10,
            except_ok_bind]
        · unfold pandaPyEq
          rw [hrp, hnv, hsr, hcd, hvd]
          simp [pyValEq, optFloatsEq_some hcdF, optFloatsEq_some hvdF,
            hgnfv, veq_refl]
          exact ⟨rfl, rfl⟩

set_option maxRecDepth 100000 in
/-- C1: counterexample — `__init__` accepts a record whose
`nominal_voltage` is the float `230.5` (no type check is performed on
that argument), `to_txt` renders it as `230.5`, and `from_txt` then
fails in `int(data['EUT']['Nominal_Voltage'])` instead of recreating
the record. -/
theorem claim1_counterexample :
    pandaInit (("1234").toList) (("1").toList) 1 2 (("u1").toList)
        (("Acme").toList) (("P1").toList) (("DE").toList) (("2020").toList)
        (.str (("NA").toList)) ⟨500, 1⟩ (.float ⟨2305, 1⟩) 1
        (("test").toList) (("1,230.0,0.0").toList) (("1,230.0,0.0").toList)
        none none none
      = .ok ⟨("1234").toList, ("1").toList, ("1").toList, ("2").toList,
          ("u1").toList, ("Acme").toList, ("P1").toList, ("DE").toList,
          ("2020").toList, .str (("NA").toList), ⟨500, 1⟩,
          .float ⟨2305, 1⟩, 1, ("test").toList, ("1,230.0,0.0").toList,
          ("1,230.0,0.0").toList, none, none, none⟩ ∧
    (to_txt ⟨("1234").toList, ("1").toList, ("1").toList, ("2").toList,
          ("u1").toList, ("Acme").toList, ("P1").toList, ("DE").toList,
          ("2020").toList, .str (("NA").toList), ⟨500, 1⟩,
          .float ⟨2305, 1⟩, 1, ("test").toList, ("1,230.0,0.0").toList,
          ("1,230.0,0.0").toList, none, none, none⟩).bind from_txt
      = .error (.intConv (("230.5").toList)) := by
  constructor
  · decide
  · decide

set_option maxRecDepth 100000 in
/-- C1 witness: a concrete serialisable record round-trips up to Python
value equality. -/
theorem claim1_witness :
    Serializable ⟨("1234").toList, ("1").toList, ("1").toList, ("2").toList,
        ("u1").toList, ("Acme").toList, ("P1").toList, ("DE").toList,
        ("2020").toList, .str (("NA").toList), ⟨500, 1⟩, .int 230, 1,
        ("test").toList, ("1,230.0,0.0").toList, ("1,230.0,0.0").toList,
        none, none, none⟩ ∧
    ∃ d q, to_txt ⟨("1234").toList, ("1").toList, ("1").toList, ("2").toList,
        ("u1").toList, ("Acme").toList, ("P1").toList, ("DE").toList,
        ("2020").toList, .str (("NA").toList), ⟨500, 1⟩, .int 230, 1,
        ("test").toList, ("1,230.0,0.0").toList, ("1,230.0,0.0").toList,
        none, none, none⟩ = .ok d ∧ from_txt d = .ok q ∧
      pandaPyEq q ⟨("1234").toList, ("1").toList, ("1").toList, ("2").toList,
        ("u1").toList, ("Acme").toList, ("P1").toList, ("DE").toList,
        ("2020").toList, .str (("NA").toList), ⟨500, 1⟩, .int 230, 1,
        ("test").toList, ("1,230.0,0.0").toList, ("1,230.0,0.0").toList,
        none, none, none⟩ = true :=
  ⟨by unfold Serializable; decide, claim1_roundtrip_amended
    ⟨("1234").toList, ("1").toList, ("1").toList, ("2").toList,
     ("u1").toList, ("Acme").toList, ("P1").toList, ("DE").toList,
     ("2020").toList, .str (("NA").toList), ⟨500, 1⟩, .int 230, 1,
     ("test").toList, ("1,230.0,0.0").toList, ("1,230.0,0.0").toList,
     none, none, none⟩ (by unfold Serializable; decide)⟩

